import Mathlib

set_option maxHeartbeats 1000000
set_option maxRecDepth 4000
set_option linter.constructorNameAsVariable false

/-!
Verification of the NPC navigation core of a tile-based store-management game.

The development shallowly embeds, from the Python sources:
* `config.py` — tile codes, sizes, speeds and the solidity sets;
* `map/pathfinding.py` — the A* pathfinder `find_path` with its helpers;
* `map/tile_map.py` — the `TileMap.tile_at` lookup;
* `entities/customer.py`, `entities/thief_customer.py`,
  `entities/litter_customer.py` — the steering routines and the
  per-customer behaviour state machines.

Grid cells are `Int × Int` pairs; world positions in the entity layer are
pairs of real numbers (the game uses floating point there, which we idealise
as `ℝ`).  Python's `while` loops are embedded with an explicit fuel
parameter; theorems about loop results carry a fuel-sufficiency hypothesis.
Python's `random` draws are modelled as explicit oracle inputs.
-/

namespace Game

/-- `TILE_SIZE` from `config.py`: `40 * 3`. -/
def TILE_SIZE : Int := 40 * 3

/-- Tile codes from `config.py`. -/
def TILE_FLOOR : Char := '.'

def TILE_WALL : Char := '#'

def TILE_SHELF : Char := 'S'

def TILE_DOOR : Char := 'D'

def TILE_COUNTER : Char := 'C'

def TILE_NODE : Char := 'N'

def TILE_OFFICE_DOOR : Char := 'O'

def TILE_COMPUTER : Char := 'P'

/-- `SOLID_TILES` from `config.py` (solid for the player). -/
def SOLID_TILES : List Char := [TILE_WALL, TILE_SHELF, TILE_DOOR, TILE_COUNTER, TILE_COMPUTER]

/-- `CUSTOMER_SOLID_TILES` from `config.py` (solid for customers). -/
def CUSTOMER_SOLID_TILES : List Char :=
  [TILE_WALL, TILE_SHELF, TILE_COUNTER, TILE_OFFICE_DOOR, TILE_COMPUTER]

/-- `find_path` duck-types its `tile_map` argument: all it uses is the
`tile_at` method.  We embed that interface as a function from (col, row)
to a tile code. -/
abbrev Tile := Int → Int → Char

abbrev Cell := Int × Int

/-- `is_walkable` from `map/pathfinding.py`. -/
def is_walkable (tm : Tile) (col row : Int) : Bool :=
  let tile := tm col row
  tile = TILE_FLOOR || tile = TILE_NODE || tile = TILE_DOOR ||
    !(CUSTOMER_SOLID_TILES.contains tile)

/-- `heuristic` from `map/pathfinding.py`: Manhattan distance.  The Python
code computes it in floating point but the value is always a nonnegative
integer, so we use `Nat`. -/
def heuristic (col1 row1 col2 row2 : Int) : Nat :=
  (col1 - col2).natAbs + (row1 - row2).natAbs

/-- `get_neighbors` from `map/pathfinding.py`: the four axis neighbours,
kept when walkable, in the source's iteration order. -/
def get_neighbors (tm : Tile) (col row : Int) : List Cell :=
  (([(0, 1), (0, -1), (1, 0), (-1, 0)] : List (Int × Int)).map
    (fun d => (col + d.1, row + d.2))).filter (fun p => is_walkable tm p.1 p.2)

/-- `tile_to_world` from `map/pathfinding.py`: the centre of a tile
(`TILE_SIZE // 2` offset; both coordinates are exact integers). -/
def tile_to_world (col row : Int) : Int × Int :=
  (col * TILE_SIZE + TILE_SIZE / 2, row * TILE_SIZE + TILE_SIZE / 2)

/-- The `Node` class from `map/pathfinding.py`: grid coordinates, the
`g`/`h` costs (always nonnegative integers here, see `heuristic`), and the
parent link used for path reconstruction.  `f` is stored as `g + h` in the
source; we compute it. -/
inductive ANode : Type where
  | mk (col row : Int) (g h : Nat) (parent : Option ANode)

def ANode.col : ANode → Int
  | .mk c _ _ _ _ => c

def ANode.row : ANode → Int
  | .mk _ r _ _ _ => r

def ANode.g : ANode → Nat
  | .mk _ _ g _ _ => g

def ANode.h : ANode → Nat
  | .mk _ _ _ h _ => h

def ANode.parent : ANode → Option ANode
  | .mk _ _ _ _ p => p

/-- `self.f = g + h` from the `Node` constructor. -/
def ANode.f (n : ANode) : Nat := n.g + n.h

def ANode.cell (n : ANode) : Cell := (n.col, n.row)

/-- Model of `heapq.heappop` on the open list: remove one node of minimal
`f` (the `Node.__lt__` comparison key).  The heap's internal tie order is
not observable; we take the leftmost minimum. -/
def popMin : List ANode → Option (ANode × List ANode)
  | [] => none
  | n :: rest =>
    match popMin rest with
    | none => some (n, [])
    | some (m, rest') => if n.f ≤ m.f then some (n, rest) else some (m, n :: rest')

/-- The `found_better` scan from `find_path`'s neighbour loop: look for the
first open node at the same cell and test `open_node.f <= f_cost`. -/
def found_better (openSet : List ANode) (c r : Int) (fCost : Nat) : Bool :=
  match openSet.find? (fun nd => nd.col == c && nd.row == r) with
  | some nd => decide (nd.f ≤ fCost)
  | none => false

/-- The path-reconstruction loop of `find_path`: walk parent links from the
goal node, appending tile centres and counting; fail with `none` as soon as
the count exceeds `max_path_length`; on success reverse into
start-to-goal order. -/
def reconstruct_from (maxLen : Nat) : ANode → List (Int × Int) → Nat → Option (List (Int × Int))
  | ANode.mk c r _ _ par, path, len =>
    let path' := path ++ [tile_to_world c r]
    let len' := len + 1
    if maxLen < len' then none
    else
      match par with
      | none => some path'.reverse
      | some p => reconstruct_from maxLen p path' len'

/-- One pass of the neighbour loop at the end of `find_path`'s main loop:
skip neighbours already closed, compute `g`/`h`/`f`, skip when
`found_better` sees an open node at the same cell with a better-or-equal
`f`, otherwise push a node parented at `current`.  The accumulator is the
live open list, exactly as the Python loop pushes into the live heap. -/
def pushNeighbor (tm : Tile) (goalCol goalRow : Int) (current : ANode) (closedSet' : List Cell)
    (acc : List ANode) (nb : Cell) : List ANode :=
  if closedSet'.contains nb then acc
  else
    let gCost := current.g + 1
    let hCost := heuristic nb.1 nb.2 goalCol goalRow
    let fCost := gCost + hCost
    if found_better acc nb.1 nb.2 fCost then acc
    else acc ++ [ANode.mk nb.1 nb.2 gCost hCost (some current)]

/-- The A* main loop of `find_path` (`while open_set:`), with explicit
fuel.  Each iteration pops a minimal-`f` node; nodes whose cell is already
closed are skipped; reaching the goal reconstructs the path; otherwise the
walkable neighbours are pushed through `pushNeighbor`. -/
def astar_loop (tm : Tile) (goalCol goalRow : Int) (maxLen : Nat) :
    Nat → List ANode → List Cell → Option (List (Int × Int))
  | 0, _, _ => none
  | fuel + 1, openSet, closedSet =>
    match popMin openSet with
    | none => none
    | some (current, rest) =>
      if closedSet.contains (current.col, current.row) then
        astar_loop tm goalCol goalRow maxLen fuel rest closedSet
      else
        let closedSet' := (current.col, current.row) :: closedSet
        if current.col == goalCol && current.row == goalRow then
          reconstruct_from maxLen current [] 0
        else
          let openSet' :=
            (get_neighbors tm current.col current.row).foldl
              (pushNeighbor tm goalCol goalRow current closedSet') rest
          astar_loop tm goalCol goalRow maxLen fuel openSet' closedSet'

/-- `[lo, lo+1, ..., lo+n-1]` — the integers Python's
`range(-radius, radius + 1)` iterates over, as a list. -/
def int_range (lo : Int) (n : Nat) : List Int := (List.range n).map (fun i => lo + i)

/-- The `(dc, dr)` offsets visited by `find_path`'s expanding-ring scan at
a given radius, in iteration order: `dc` outer, `dr` inner, keeping only
the ring perimeter (`abs(dc) == radius or abs(dr) == radius`). -/
def perimeter_offsets (radius : Nat) : List (Int × Int) :=
  (int_range (-(radius : Int)) (2 * radius + 1)).flatMap (fun dc =>
    (int_range (-(radius : Int)) (2 * radius + 1)).filterMap (fun dr =>
      if dc.natAbs = radius ∨ dr.natAbs = radius then some (dc, dr) else none))

/-- The fallback of `find_path` when a start/goal cell is not walkable:
scan rings of radius 1..4 and substitute the first walkable cell found, or
fail. -/
def nearest_walkable (tm : Tile) (col row : Int) : Option Cell :=
  ([1, 2, 3, 4] : List Nat).findSome? (fun radius =>
    ((perimeter_offsets radius).find? (fun d => is_walkable tm (col + d.1) (row + d.2))).map
      (fun d => (col + d.1, row + d.2)))

/-- `find_path` from `map/pathfinding.py`, after `world_to_tile` has
produced the start and goal cells: substitute walkable cells if needed,
short-circuit the same-cell case, then run A*.  `fuel` bounds the embedded
`while` loop; theorems assume it large enough. -/
def find_path_cells (tm : Tile) (fuel : Nat) (startCol startRow goalCol goalRow : Int)
    (maxLen : Nat) : Option (List (Int × Int)) :=
  match (if is_walkable tm startCol startRow then some (startCol, startRow)
         else nearest_walkable tm startCol startRow) with
  | none => none
  | some s =>
    match (if is_walkable tm goalCol goalRow then some (goalCol, goalRow)
           else nearest_walkable tm goalCol goalRow) with
    | none => none
    | some g =>
      if s.1 == g.1 && s.2 == g.2 then some [tile_to_world g.1 g.2]
      else
        astar_loop tm g.1 g.2 maxLen fuel
          [ANode.mk s.1 s.2 0 (heuristic s.1 s.2 g.1 g.2) none] []

/-- `world_to_tile` from `map/pathfinding.py`: floor division of world
coordinates by `TILE_SIZE` (Python's `//` on floats is the floor). -/
noncomputable def world_to_tile (pos : ℝ × ℝ) : Cell :=
  (⌊pos.1 / (TILE_SIZE : ℝ)⌋, ⌊pos.2 / (TILE_SIZE : ℝ)⌋)

/-- `find_path` from `map/pathfinding.py` on world-space start and goal
points.  The source's `max_path_length` parameter defaults to 1000 at
every call site. -/
noncomputable def find_path (tm : Tile) (fuel : Nat) (start goal : ℝ × ℝ)
    (maxLen : Nat) : Option (List (Int × Int)) :=
  find_path_cells tm fuel (world_to_tile start).1 (world_to_tile start).2
    (world_to_tile goal).1 (world_to_tile goal).2 maxLen

end Game

namespace Game

/-!
## Ground truth for the pathfinding claims

A 4-directional walkable route, and the shortest-route cell count, stated
relationally.  `Route tm s t n` holds when there is a walk of `n` steps
from cell `s` to cell `t` whose cells are all walkable for customers and
whose consecutive cells are axis neighbours — exactly the routes a
brute-force BFS over `get_neighbors` enumerates.
-/

inductive Route (tm : Tile) (s : Cell) : Cell → Nat → Prop where
  | refl (hw : is_walkable tm s.1 s.2 = true) : Route tm s s 0
  | tail {p q : Cell} {n : Nat} (hr : Route tm s p n)
      (hq : q ∈ get_neighbors tm p.1 p.2) : Route tm s q (n + 1)

theorem mem_get_neighbors {tm : Tile} {c r : Int} {q : Cell} :
    q ∈ get_neighbors tm c r ↔
      is_walkable tm q.1 q.2 = true ∧ (q.1 - c).natAbs + (q.2 - r).natAbs = 1 := by
  constructor
  · intro hmem
    unfold get_neighbors at hmem
    rw [List.mem_filter] at hmem
    obtain ⟨hmem, hw⟩ := hmem
    refine ⟨hw, ?_⟩
    simp only [List.map_cons, List.map_nil, List.mem_cons, List.not_mem_nil,
      or_false] at hmem
    rcases hmem with h | h | h | h <;> subst h <;> simp
  · rintro ⟨hw, hdist⟩
    unfold get_neighbors
    rw [List.mem_filter]
    refine ⟨?_, hw⟩
    simp only [List.map_cons, List.map_nil, List.mem_cons, List.not_mem_nil, or_false]
    obtain ⟨qc, qr⟩ := q
    simp only at hdist ⊢
    have h1 : (qc = c ∧ qr = r + 1) ∨ (qc = c ∧ qr = r + -1) ∨
        (qc = c + 1 ∧ qr = r) ∨ (qc = c + -1 ∧ qr = r) := by omega
    rcases h1 with ⟨h, h'⟩ | ⟨h, h'⟩ | ⟨h, h'⟩ | ⟨h, h'⟩ <;> subst h <;> subst h' <;> simp

theorem Route.walkable_src {tm : Tile} {s t : Cell} {n : Nat} (h : Route tm s t n) :
    is_walkable tm s.1 s.2 = true := by
  induction h with
  | refl hw => exact hw
  | tail hr hq ih => exact ih

theorem Route.walkable_tgt {tm : Tile} {s t : Cell} {n : Nat} (h : Route tm s t n) :
    is_walkable tm t.1 t.2 = true := by
  cases h with
  | refl hw => exact hw
  | tail hr hq => exact (mem_get_neighbors.mp hq).1

/-- Admissibility of the Manhattan heuristic: every walkable route from
`s` to `t` has at least `heuristic s t` steps. -/
theorem Route.heuristic_le {tm : Tile} {s t : Cell} {n : Nat} (h : Route tm s t n) :
    heuristic s.1 s.2 t.1 t.2 ≤ n := by
  induction h with
  | refl hw => simp [heuristic]
  | tail hr hq ih =>
    have hadj := (mem_get_neighbors.mp hq).2
    unfold heuristic at ih ⊢
    omega

/-!
## The parent-chain invariant of open-set nodes
-/

/-- Well-formedness of a `Node` parent chain rooted at the start cell `s`:
the cell is walkable, `h` is the stored heuristic toward the goal, the
root is the start node with `g = 0`, and every link is a `get_neighbors`
step with `g` incremented. -/
def chainOK (tm : Tile) (s : Cell) (goalCol goalRow : Int) : ANode → Prop
  | ANode.mk c r g h par =>
    is_walkable tm c r = true ∧ h = heuristic c r goalCol goalRow ∧
    match par with
    | none => (c, r) = s ∧ g = 0
    | some p =>
      chainOK tm s goalCol goalRow p ∧ (c, r) ∈ get_neighbors tm p.col p.row ∧ g = p.g + 1

/-- The cells of a parent chain, in start-to-node order. -/
def chainCells : ANode → List Cell
  | ANode.mk c r _ _ none => [(c, r)]
  | ANode.mk c r _ _ (some p) => chainCells p ++ [(c, r)]

/-- The number of nodes of a parent chain. -/
def chainLen : ANode → Nat
  | ANode.mk _ _ _ _ none => 1
  | ANode.mk _ _ _ _ (some p) => chainLen p + 1

theorem chainCells_length : ∀ nd : ANode, (chainCells nd).length = chainLen nd
  | ANode.mk c r g h none => by simp [chainCells, chainLen]
  | ANode.mk c r g h (some p) => by
    have ih := chainCells_length p
    simp [chainCells, chainLen, ih]

theorem chainOK.walkable {tm : Tile} {s : Cell} {gc gr : Int} : ∀ {nd : ANode},
    chainOK tm s gc gr nd → is_walkable tm nd.col nd.row = true := by
  intro nd h
  cases nd with
  | mk c r g hh par =>
    rw [chainOK.eq_def] at h
    exact h.1

theorem chainOK.h_eq {tm : Tile} {s : Cell} {gc gr : Int} : ∀ {nd : ANode},
    chainOK tm s gc gr nd → nd.h = heuristic nd.col nd.row gc gr := by
  intro nd h
  cases nd with
  | mk c r g hh par =>
    rw [chainOK.eq_def] at h
    exact h.2.1

theorem chainOK.route {tm : Tile} {s : Cell} {gc gr : Int} :
    ∀ {nd : ANode}, chainOK tm s gc gr nd → Route tm s (nd.col, nd.row) nd.g
  | ANode.mk c r g hh none, h => by
    rw [chainOK] at h
    obtain ⟨hw, -, hcell, hg⟩ := h
    simp only [ANode.col, ANode.row, ANode.g, hg]
    cases hcell
    exact Route.refl hw
  | ANode.mk c r g hh (some p), h => by
    rw [chainOK] at h
    obtain ⟨hw, -, hp, hnb, hg⟩ := h
    simp only [ANode.col, ANode.row, ANode.g, hg]
    exact Route.tail (chainOK.route hp) hnb

theorem chainOK.len_eq {tm : Tile} {s : Cell} {gc gr : Int} :
    ∀ {nd : ANode}, chainOK tm s gc gr nd → chainLen nd = nd.g + 1
  | ANode.mk c r g hh none, h => by
    rw [chainOK] at h
    obtain ⟨-, -, -, hg⟩ := h
    simp [chainLen, ANode.g, hg]
  | ANode.mk c r g hh (some p), h => by
    rw [chainOK] at h
    obtain ⟨-, -, hp, -, hg⟩ := h
    simp [chainLen, ANode.g, hg, chainOK.len_eq hp]

theorem chainCells_getLast : ∀ nd : ANode, (chainCells nd).getLast? = some (nd.col, nd.row)
  | ANode.mk c r g h none => by simp [chainCells, ANode.col, ANode.row]
  | ANode.mk c r g h (some p) => by simp [chainCells, ANode.col, ANode.row]

theorem chainOK.cells_walkable {tm : Tile} {s : Cell} {gc gr : Int} :
    ∀ {nd : ANode}, chainOK tm s gc gr nd →
      ∀ pc ∈ chainCells nd, is_walkable tm pc.1 pc.2 = true
  | ANode.mk c r g hh none, h => by
    rw [chainOK] at h
    intro pc hpc
    simp only [chainCells, List.mem_singleton] at hpc
    subst hpc
    exact h.1
  | ANode.mk c r g hh (some p), h => by
    rw [chainOK] at h
    obtain ⟨hw, -, hp, -, -⟩ := h
    intro pc hpc
    simp only [chainCells, List.mem_append, List.mem_singleton] at hpc
    rcases hpc with hpc | hpc
    · exact chainOK.cells_walkable hp pc hpc
    · subst hpc; exact hw

/-- Consecutive chain cells are at grid Manhattan distance exactly 1. -/
theorem chainOK.cells_chain {tm : Tile} {s : Cell} {gc gr : Int} :
    ∀ {nd : ANode}, chainOK tm s gc gr nd →
      List.Chain' (fun a b : Cell => (b.1 - a.1).natAbs + (b.2 - a.2).natAbs = 1)
        (chainCells nd)
  | ANode.mk c r g hh none, _ => by simp [chainCells]
  | ANode.mk c r g hh (some p), h => by
    rw [chainOK] at h
    obtain ⟨-, -, hp, hnb, -⟩ := h
    rw [chainCells, List.chain'_append]
    refine ⟨chainOK.cells_chain hp, by simp, ?_⟩
    intro x hx y hy
    rw [chainCells_getLast] at hx
    simp only [Option.mem_def, Option.some.injEq] at hx
    simp only [List.head?_cons, Option.mem_def, Option.some.injEq] at hy
    subst hx; subst hy
    exact (mem_get_neighbors.mp hnb).2

/-- Closed form of the reconstruction loop: it fails exactly when the
chain is longer than the cap, and otherwise returns the chain's tile
centres (in start-to-goal order) after the reversed accumulator. -/
theorem reconstruct_from_eq (maxLen : Nat) :
    ∀ (nd : ANode) (acc : List (Int × Int)) (len : Nat),
      reconstruct_from maxLen nd acc len =
        if maxLen < len + chainLen nd then none
        else some ((chainCells nd).map (fun pc => tile_to_world pc.1 pc.2) ++ acc.reverse)
  | ANode.mk c r g h none, acc, len => by
    simp only [reconstruct_from, chainLen, chainCells]
    by_cases hcap : maxLen < len + 1
    · rw [if_pos hcap, if_pos hcap]
    · rw [if_neg hcap, if_neg hcap]
      simp
  | ANode.mk c r g h (some p), acc, len => by
    simp only [reconstruct_from, chainLen, chainCells]
    by_cases hcap : maxLen < len + 1
    · rw [if_pos hcap, if_pos (by omega)]
    · rw [if_neg hcap, reconstruct_from_eq maxLen p]
      by_cases hcap2 : maxLen < len + 1 + chainLen p
      · rw [if_pos hcap2, if_pos (by omega)]
      · rw [if_neg hcap2, if_neg (by omega)]
        simp

end Game

namespace Game

/-!
## Properties of the heap-pop model and the neighbour fold
-/

theorem popMin_eq_none {l : List ANode} : popMin l = none ↔ l = [] := by
  cases l with
  | nil => simp [popMin]
  | cons n rest =>
    simp only [popMin]
    cases h : popMin rest with
    | none => simp
    | some v =>
      obtain ⟨m, r'⟩ := v
      by_cases hf : n.f ≤ m.f <;> simp [hf]

theorem popMin_perm : ∀ {l : List ANode} {n : ANode} {rest : List ANode},
    popMin l = some (n, rest) → l.Perm (n :: rest)
  | [], _, _, h => by simp [popMin] at h
  | x :: xs, n, rest, h => by
    simp only [popMin] at h
    cases hx : popMin xs with
    | none =>
      rw [hx] at h
      have hnil : xs = [] := popMin_eq_none.mp hx
      subst hnil
      simp only [Option.some.injEq, Prod.mk.injEq] at h
      obtain ⟨h1, h2⟩ := h
      subst h1; subst h2
      exact List.Perm.refl _
    | some v =>
      obtain ⟨m, rest'⟩ := v
      rw [hx] at h
      dsimp only at h
      by_cases hf : x.f ≤ m.f
      · rw [if_pos hf] at h
        simp only [Option.some.injEq, Prod.mk.injEq] at h
        obtain ⟨h1, h2⟩ := h
        subst h1; subst h2
        exact List.Perm.refl _
      · rw [if_neg hf] at h
        simp only [Option.some.injEq, Prod.mk.injEq] at h
        obtain ⟨h1, h2⟩ := h
        subst h1; subst h2
        have ihp : xs.Perm (m :: rest') := popMin_perm hx
        exact (ihp.cons x).trans (List.Perm.swap m x rest')

theorem popMin_mem {l : List ANode} {n : ANode} {rest : List ANode}
    (h : popMin l = some (n, rest)) : n ∈ l :=
  (popMin_perm h).symm.subset (List.mem_cons_self n rest)

theorem popMin_subset {l : List ANode} {n : ANode} {rest : List ANode}
    (h : popMin l = some (n, rest)) : ∀ x ∈ rest, x ∈ l :=
  fun x hx => (popMin_perm h).symm.subset (List.mem_cons_of_mem n hx)

theorem popMin_length {l : List ANode} {n : ANode} {rest : List ANode}
    (h : popMin l = some (n, rest)) : l.length = rest.length + 1 := by
  have := (popMin_perm h).length_eq
  simpa using this

theorem popMin_mem_iff {l : List ANode} {n : ANode} {rest : List ANode}
    (h : popMin l = some (n, rest)) : ∀ x ∈ l, x = n ∨ x ∈ rest := by
  intro x hx
  have := (popMin_perm h).subset hx
  simpa using this

theorem popMin_min : ∀ {l : List ANode} {n : ANode} {rest : List ANode},
    popMin l = some (n, rest) → ∀ x ∈ l, n.f ≤ x.f
  | [], _, _, h => by simp [popMin] at h
  | x :: xs, n, rest, h => by
    simp only [popMin] at h
    cases hx : popMin xs with
    | none =>
      rw [hx] at h
      have hnil : xs = [] := popMin_eq_none.mp hx
      subst hnil
      simp only [Option.some.injEq, Prod.mk.injEq] at h
      obtain ⟨h1, -⟩ := h
      subst h1
      intro y hy
      simp only [List.mem_singleton] at hy
      subst hy
      exact le_refl _
    | some v =>
      obtain ⟨m, rest'⟩ := v
      rw [hx] at h
      dsimp only at h
      have ihm := popMin_min hx
      by_cases hf : x.f ≤ m.f
      · rw [if_pos hf] at h
        simp only [Option.some.injEq, Prod.mk.injEq] at h
        obtain ⟨h1, -⟩ := h
        subst h1
        intro y hy
        rcases List.mem_cons.mp hy with hy | hy
        · subst hy; exact le_refl _
        · exact le_trans hf (ihm y hy)
      · rw [if_neg hf] at h
        simp only [Option.some.injEq, Prod.mk.injEq] at h
        obtain ⟨h1, -⟩ := h
        subst h1
        intro y hy
        rcases List.mem_cons.mp hy with hy | hy
        · subst hy; exact le_of_lt (lt_of_not_le hf)
        · exact ihm y hy

theorem found_better_spec {openSet : List ANode} {c r : Int} {fCost : Nat}
    (h : found_better openSet c r fCost = true) :
    ∃ nd ∈ openSet, nd.col = c ∧ nd.row = r ∧ nd.f ≤ fCost := by
  unfold found_better at h
  cases hf : openSet.find? (fun nd => nd.col == c && nd.row == r) with
  | none => rw [hf] at h; simp at h
  | some nd =>
    rw [hf] at h
    have hmem := List.mem_of_find?_eq_some hf
    have hpred := List.find?_some hf
    simp only [Bool.and_eq_true, beq_iff_eq] at hpred
    simp only [decide_eq_true_eq] at h
    exact ⟨nd, hmem, hpred.1, hpred.2, h⟩

/-- The node appended by `pushNeighbor` when neither skip applies. -/
def newNode (tm : Tile) (goalCol goalRow : Int) (current : ANode) (nb : Cell) : ANode :=
  ANode.mk nb.1 nb.2 (current.g + 1) (heuristic nb.1 nb.2 goalCol goalRow) (some current)

theorem pushNeighbor_props (tm : Tile) (gc gr : Int) (current : ANode) (closed' : List Cell)
    (acc : List ANode) (nb : Cell)
    (hh : ∀ nd ∈ acc, nd.h = heuristic nd.col nd.row gc gr) :
    (∀ x ∈ acc, x ∈ pushNeighbor tm gc gr current closed' acc nb) ∧
    (∀ nd ∈ pushNeighbor tm gc gr current closed' acc nb,
      nd ∈ acc ∨ nd = newNode tm gc gr current nb) ∧
    (pushNeighbor tm gc gr current closed' acc nb).length ≤ acc.length + 1 ∧
    (∀ nd ∈ pushNeighbor tm gc gr current closed' acc nb,
      nd.h = heuristic nd.col nd.row gc gr) ∧
    (closed'.contains nb = true ∨
      ∃ nd ∈ pushNeighbor tm gc gr current closed' acc nb,
        nd.cell = nb ∧ nd.g ≤ current.g + 1) := by
  unfold pushNeighbor
  by_cases hc : closed'.contains nb
  · rw [if_pos hc]
    exact ⟨fun x hx => hx, fun nd hnd => Or.inl hnd, by omega, hh, Or.inl hc⟩
  · rw [if_neg hc]
    by_cases hfb : found_better acc nb.1 nb.2 (current.g + 1 + heuristic nb.1 nb.2 gc gr)
    · rw [if_pos hfb]
      obtain ⟨nd, hnd, hcol, hrow, hf⟩ := found_better_spec hfb
      refine ⟨fun x hx => hx, fun nd hnd => Or.inl hnd, by omega, hh, Or.inr ?_⟩
      refine ⟨nd, hnd, ?_, ?_⟩
      · simp [ANode.cell, hcol, hrow]
      · have hhe := hh nd hnd
        have : nd.f = nd.g + heuristic nd.col nd.row gc gr := by
          rw [ANode.f, hhe]
        rw [this, hcol, hrow] at hf
        omega
    · rw [if_neg hfb]
      refine ⟨fun x hx => List.mem_append_left _ hx, ?_, by simp, ?_, ?_⟩
      · intro nd hnd
        rcases List.mem_append.mp hnd with hnd | hnd
        · exact Or.inl hnd
        · simp only [List.mem_singleton] at hnd
          exact Or.inr hnd
      · intro nd hnd
        rcases List.mem_append.mp hnd with hnd | hnd
        · exact hh nd hnd
        · simp only [List.mem_singleton] at hnd
          subst hnd
          rfl
      · refine Or.inr ⟨newNode tm gc gr current nb, ?_, ?_, ?_⟩
        · exact List.mem_append_right _ (List.mem_singleton.mpr rfl)
        · simp [newNode, ANode.cell, ANode.col, ANode.row]
        · simp [newNode, ANode.g]

theorem fold_push_props (tm : Tile) (gc gr : Int) (current : ANode) (closed' : List Cell) :
    ∀ (nbs : List Cell) (acc : List ANode),
      (∀ nd ∈ acc, nd.h = heuristic nd.col nd.row gc gr) →
      (∀ x ∈ acc, x ∈ nbs.foldl (pushNeighbor tm gc gr current closed') acc) ∧
      (∀ nd ∈ nbs.foldl (pushNeighbor tm gc gr current closed') acc,
        nd ∈ acc ∨ ∃ nb ∈ nbs, nd = newNode tm gc gr current nb) ∧
      (nbs.foldl (pushNeighbor tm gc gr current closed') acc).length ≤
        acc.length + nbs.length ∧
      (∀ nd ∈ nbs.foldl (pushNeighbor tm gc gr current closed') acc,
        nd.h = heuristic nd.col nd.row gc gr) ∧
      (∀ q ∈ nbs, closed'.contains q = true ∨
        ∃ nd ∈ nbs.foldl (pushNeighbor tm gc gr current closed') acc,
          nd.cell = q ∧ nd.g ≤ current.g + 1)
  | [], acc, hh => by
    refine ⟨fun x hx => hx, fun nd hnd => Or.inl hnd, by simp, hh, by simp⟩
  | nb :: nbs, acc, hh => by
    obtain ⟨s1, s2, s3, s4, s5⟩ := pushNeighbor_props tm gc gr current closed' acc nb hh
    obtain ⟨i1, i2, i3, i4, i5⟩ :=
      fold_push_props tm gc gr current closed' nbs (pushNeighbor tm gc gr current closed' acc nb) s4
    simp only [List.foldl_cons]
    refine ⟨fun x hx => i1 x (s1 x hx), ?_, ?_, i4, ?_⟩
    · intro nd hnd
      rcases i2 nd hnd with hnd' | ⟨nb', hnb', hEq⟩
      · rcases s2 nd hnd' with hnd'' | hEq
        · exact Or.inl hnd''
        · exact Or.inr ⟨nb, List.mem_cons_self _ _, hEq⟩
      · exact Or.inr ⟨nb', List.mem_cons_of_mem _ hnb', hEq⟩
    · calc (nbs.foldl (pushNeighbor tm gc gr current closed')
            (pushNeighbor tm gc gr current closed' acc nb)).length
          ≤ (pushNeighbor tm gc gr current closed' acc nb).length + nbs.length := i3
        _ ≤ acc.length + 1 + nbs.length := by omega
        _ = acc.length + (nb :: nbs).length := by simp [List.length_cons]; omega
    · intro q hq
      rcases List.mem_cons.mp hq with hq | hq
      · subst hq
        rcases s5 with h | ⟨nd, hnd, hcell, hg⟩
        · exact Or.inl h
        · exact Or.inr ⟨nd, i1 nd hnd, hcell, hg⟩
      · exact i5 q hq

end Game

namespace Game

/-- New nodes pushed by the neighbour fold have well-formed chains. -/
theorem newNode_chainOK {tm : Tile} {s : Cell} {gc gr : Int} {current : ANode} {nb : Cell}
    (hcur : chainOK tm s gc gr current)
    (hnb : nb ∈ get_neighbors tm current.col current.row) :
    chainOK tm s gc gr (newNode tm gc gr current nb) := by
  rw [newNode, chainOK]
  refine ⟨(mem_get_neighbors.mp hnb).1, rfl, hcur, ?_, rfl⟩
  rw [show ((nb.1, nb.2) : Cell) = nb from rfl]
  exact hnb

/-- Soundness of the A* main loop: any returned path is the list of tile
centres of a well-formed parent chain from the start cell to the goal
cell, within the length cap. -/
theorem astar_sound (tm : Tile) (s : Cell) (gc gr : Int) (maxLen : Nat) :
    ∀ (fuel : Nat) (openSet : List ANode) (closedSet : List Cell) (p : List (Int × Int)),
      (∀ nd ∈ openSet, chainOK tm s gc gr nd) →
      astar_loop tm gc gr maxLen fuel openSet closedSet = some p →
      ∃ nd : ANode, chainOK tm s gc gr nd ∧ nd.col = gc ∧ nd.row = gr ∧
        p = (chainCells nd).map (fun pc => tile_to_world pc.1 pc.2) ∧
        chainLen nd ≤ maxLen := by
  intro fuel
  induction fuel with
  | zero =>
    intro _ _ _ _ h
    simp [astar_loop] at h
  | succ fuel ih =>
    intro openSet closedSet p hopen hres
    rw [astar_loop] at hres
    cases hp : popMin openSet with
    | none => rw [hp] at hres; simp at hres
    | some v =>
      obtain ⟨current, rest⟩ := v
      rw [hp] at hres
      dsimp only at hres
      have hcur : chainOK tm s gc gr current := hopen current (popMin_mem hp)
      by_cases hc : closedSet.contains (current.col, current.row) = true
      · rw [if_pos hc] at hres
        exact ih rest closedSet p (fun nd hnd => hopen nd (popMin_subset hp nd hnd)) hres
      · rw [if_neg hc] at hres
        by_cases hgoal : (current.col == gc && current.row == gr) = true
        · rw [if_pos hgoal] at hres
          rw [reconstruct_from_eq] at hres
          by_cases hcap : maxLen < 0 + chainLen current
          · rw [if_pos hcap] at hres
            simp at hres
          · rw [if_neg hcap] at hres
            simp only [Option.some.injEq] at hres
            simp only [Bool.and_eq_true, beq_iff_eq] at hgoal
            refine ⟨current, hcur, hgoal.1, hgoal.2, ?_, by omega⟩
            rw [← hres]
            simp
        · rw [if_neg hgoal] at hres
          have hh : ∀ nd ∈ rest, nd.h = heuristic nd.col nd.row gc gr := fun nd hnd =>
            chainOK.h_eq (hopen nd (popMin_subset hp nd hnd))
          obtain ⟨-, f2, -, -, -⟩ := fold_push_props tm gc gr current
            ((current.col, current.row) :: closedSet)
            (get_neighbors tm current.col current.row) rest hh
          refine ih _ _ p (fun nd hnd => ?_) hres
          rcases f2 nd hnd with hnd' | ⟨nb, hnb, hEq⟩
          · exact hopen nd (popMin_subset hp nd hnd')
          · subst hEq
            exact newNode_chainOK hcur hnb

end Game

namespace Game

theorem nearest_walkable_walkable {tm : Tile} {col row : Int} {p : Cell}
    (h : nearest_walkable tm col row = some p) : is_walkable tm p.1 p.2 = true := by
  unfold nearest_walkable at h
  obtain ⟨radius, -, hr⟩ := List.exists_of_findSome?_eq_some h
  cases hf : (perimeter_offsets radius).find?
      (fun d => is_walkable tm (col + d.1) (row + d.2)) with
  | none => rw [hf] at hr; simp at hr
  | some d =>
    rw [hf] at hr
    simp only [Option.map_some', Option.some.injEq] at hr
    subst hr
    simpa using List.find?_some hf

/-- Soundness of `find_path` at cell level: every returned path is the
list of tile centres of a nonempty sequence of cells that are all walkable
for customers, consecutive cells being grid neighbours; and the path
respects the length cap (for the trivial single-cell path this needs the
cap to be positive, which it is at every call site). -/
theorem find_path_cells_sound {tm : Tile} {fuel : Nat} {sc sr gc gr : Int} {maxLen : Nat}
    {p : List (Int × Int)}
    (h : find_path_cells tm fuel sc sr gc gr maxLen = some p) :
    ∃ cells : List Cell, p = cells.map (fun pc => tile_to_world pc.1 pc.2) ∧
      (∀ pc ∈ cells, is_walkable tm pc.1 pc.2 = true) ∧
      List.Chain' (fun a b : Cell => (b.1 - a.1).natAbs + (b.2 - a.2).natAbs = 1) cells ∧
      (1 ≤ maxLen → p.length ≤ maxLen) := by
  unfold find_path_cells at h
  cases hs : (if is_walkable tm sc sr = true then some ((sc, sr) : Cell)
      else nearest_walkable tm sc sr) with
  | none => rw [hs] at h; simp at h
  | some s0 =>
    rw [hs] at h
    cases hg : (if is_walkable tm gc gr = true then some ((gc, gr) : Cell)
        else nearest_walkable tm gc gr) with
    | none => rw [hg] at h; simp at h
    | some g0 =>
      rw [hg] at h
      dsimp only at h
      have hs0w : is_walkable tm s0.1 s0.2 = true := by
        by_cases hw : is_walkable tm sc sr = true
        · rw [if_pos hw] at hs
          simp only [Option.some.injEq] at hs
          subst hs; exact hw
        · rw [if_neg hw] at hs
          exact nearest_walkable_walkable hs
      have hg0w : is_walkable tm g0.1 g0.2 = true := by
        by_cases hw : is_walkable tm gc gr = true
        · rw [if_pos hw] at hg
          simp only [Option.some.injEq] at hg
          subst hg; exact hw
        · rw [if_neg hw] at hg
          exact nearest_walkable_walkable hg
      by_cases heq : (s0.1 == g0.1 && s0.2 == g0.2) = true
      · rw [if_pos heq] at h
        simp only [Option.some.injEq] at h
        subst h
        refine ⟨[g0], by simp, ?_, by simp, by intro h1; simpa using h1⟩
        intro pc hpc
        simp only [List.mem_singleton] at hpc
        subst hpc
        exact hg0w
      · rw [if_neg heq] at h
        have hopen : ∀ nd ∈ [ANode.mk s0.1 s0.2 0 (heuristic s0.1 s0.2 g0.1 g0.2) none],
            chainOK tm (s0.1, s0.2) g0.1 g0.2 nd := by
          intro nd hnd
          simp only [List.mem_singleton] at hnd
          subst hnd
          rw [chainOK]
          exact ⟨hs0w, rfl, rfl, rfl⟩
        obtain ⟨nd, hOK, -, -, hp, hlen⟩ :=
          astar_sound tm (s0.1, s0.2) g0.1 g0.2 maxLen fuel _ [] p hopen h
        refine ⟨chainCells nd, hp, chainOK.cells_walkable hOK, chainOK.cells_chain hOK, ?_⟩
        intro hone
        rw [hp, List.length_map, chainCells_length]
        exact hlen

/-- The reconstruction loop refuses chains longer than the cap. -/
theorem reconstruct_overlong {maxLen : Nat} {nd : ANode} (h : maxLen < chainLen nd) :
    reconstruct_from maxLen nd [] 0 = none := by
  rw [reconstruct_from_eq, if_pos (by omega)]

end Game

namespace Game

theorem cell_contains_iff {l : List Cell} {x : Cell} : l.contains x = true ↔ x ∈ l := by
  simp

theorem cell_contains_false_iff {l : List Cell} {x : Cell} : l.contains x = false ↔ x ∉ l := by
  rw [← Bool.not_eq_true, cell_contains_iff]

theorem get_neighbors_length_le (tm : Tile) (c r : Int) :
    (get_neighbors tm c r).length ≤ 4 := by
  unfold get_neighbors
  calc ((([(0, 1), (0, -1), (1, 0), (-1, 0)] : List (Int × Int)).map
        (fun d => (c + d.1, r + d.2))).filter (fun p => is_walkable tm p.1 p.2)).length
      ≤ (([(0, 1), (0, -1), (1, 0), (-1, 0)] : List (Int × Int)).map
        (fun d => (c + d.1, r + d.2))).length := List.length_filter_le _ _
    _ = 4 := by simp

/-!
## The A* optimality invariant

The invariant maintained across loop iterations.  `hexp` says every
closed cell's expansion survives in the open list with `g` at most one
more than any route cost to the closed cell; together with the pop-min
discipline and the consistent heuristic, this makes the `g` of every
popped not-yet-closed node optimal.
-/

structure AInv (tm : Tile) (s : Cell) (gc gr : Int)
    (openSet : List ANode) (closed : List Cell) : Prop where
  hopen : ∀ nd ∈ openSet, chainOK tm s gc gr nd
  hstart : closed.contains s = true ∨ ∃ nd ∈ openSet, nd.cell = s ∧ nd.g = 0
  hexp : ∀ p : Cell, closed.contains p = true → ∀ q ∈ get_neighbors tm p.1 p.2,
    closed.contains q = true ∨ ∃ nd ∈ openSet, nd.cell = q ∧
      ∀ m, Route tm s p m → nd.g ≤ m + 1
  hgoal : closed.contains ((gc, gr) : Cell) = false
  hclosedW : ∀ p : Cell, closed.contains p = true → is_walkable tm p.1 p.2 = true

/-- The frontier lemma: along any walkable route from the start to an
unclosed cell `z`, some open node has `f` at most the route cost plus the
heuristic at `z`. -/
theorem frontier {tm : Tile} {s : Cell} {gc gr : Int} {openSet : List ANode}
    {closed : List Cell} (inv : AInv tm s gc gr openSet closed) :
    ∀ {z : Cell} {n : Nat}, Route tm s z n → closed.contains z = false →
      ∃ nd ∈ openSet, nd.f ≤ n + heuristic z.1 z.2 gc gr := by
  intro z n hroute
  induction hroute with
  | refl hw =>
    intro hz
    rcases inv.hstart with hcl | ⟨nd, hnd, hcell, hg⟩
    · rw [hz] at hcl
      simp at hcl
    · refine ⟨nd, hnd, ?_⟩
      have hh := chainOK.h_eq (inv.hopen nd hnd)
      have hcol : nd.col = s.1 := by rw [← hcell]; rfl
      have hrow : nd.row = s.2 := by rw [← hcell]; rfl
      rw [ANode.f, hg, hh, hcol, hrow]
  | tail hr hq ih =>
    rename_i p q m
    intro hz
    by_cases hp : closed.contains p = true
    · rcases inv.hexp p hp q hq with hqc | ⟨nd, hnd, hcell, hbound⟩
      · rw [hz] at hqc
        simp at hqc
      · refine ⟨nd, hnd, ?_⟩
        have hg := hbound m hr
        have hh := chainOK.h_eq (inv.hopen nd hnd)
        have hcol : nd.col = q.1 := by rw [← hcell]; rfl
        have hrow : nd.row = q.2 := by rw [← hcell]; rfl
        rw [ANode.f, hh, hcol, hrow]
        omega
    · obtain ⟨nd, hnd, hf⟩ := ih (by simpa using hp)
      refine ⟨nd, hnd, ?_⟩
      have hadj := (mem_get_neighbors.mp hq).2
      have hcons : heuristic p.1 p.2 gc gr ≤ heuristic q.1 q.2 gc gr + 1 := by
        unfold heuristic
        omega
      omega

/-- Optimality of popped nodes: when the loop pops a node whose cell is
not yet closed, its `g` is a lower bound of every route cost to that
cell. -/
theorem popped_g_le {tm : Tile} {s : Cell} {gc gr : Int} {openSet : List ANode}
    {closed : List Cell} {current : ANode} {rest : List ANode}
    (inv : AInv tm s gc gr openSet closed)
    (hp : popMin openSet = some (current, rest))
    (hc : closed.contains ((current.col, current.row) : Cell) = false) :
    ∀ m, Route tm s (current.col, current.row) m → current.g ≤ m := by
  intro m hroute
  obtain ⟨nd, hnd, hf⟩ := frontier inv hroute hc
  have hmin := popMin_min hp nd hnd
  have hh := chainOK.h_eq (inv.hopen current (popMin_mem hp))
  have h3 : current.f = current.g + heuristic current.col current.row gc gr := by
    rw [ANode.f, hh]
  have hf' : nd.f ≤ m + heuristic current.col current.row gc gr := hf
  omega

end Game

namespace Game

/-- Termination potential of the A* loop: walkable cells of the bounding
box not yet closed. -/
def remaining (tm : Tile) (B : Finset Cell) (closed : List Cell) : Nat :=
  (B.filter (fun p => is_walkable tm p.1 p.2 = true ∧ closed.contains p = false)).card

/-- The A* main loop is complete and optimal: under the loop invariant,
with enough fuel, when the goal is reachable in a shortest `n` steps the
loop returns a path of exactly `n + 1` waypoints when that fits the cap,
and `none` when it exceeds the cap. -/
theorem astar_main {tm : Tile} {s : Cell} {gc gr : Int} {maxLen : Nat} {B : Finset Cell}
    (hB : ∀ c r : Int, is_walkable tm c r = true → ((c, r) : Cell) ∈ B)
    {n : Nat} (hroute : Route tm s (gc, gr) n)
    (hshort : ∀ m, Route tm s (gc, gr) m → n ≤ m) :
    ∀ (fuel : Nat) (openSet : List ANode) (closed : List Cell),
      AInv tm s gc gr openSet closed →
      openSet.length + 5 * remaining tm B closed ≤ fuel →
      (n + 1 ≤ maxLen → ∃ p, astar_loop tm gc gr maxLen fuel openSet closed = some p ∧
        p.length = n + 1) ∧
      (maxLen < n + 1 → astar_loop tm gc gr maxLen fuel openSet closed = none) := by
  intro fuel
  induction fuel with
  | zero =>
    intro openSet closed inv hfuel
    exfalso
    obtain ⟨nd, hnd, -⟩ := frontier inv hroute inv.hgoal
    have h1 : 0 < openSet.length := List.length_pos.mpr (List.ne_nil_of_mem hnd)
    omega
  | succ fuel ih =>
    intro openSet closed inv hfuel
    cases hp : popMin openSet with
    | none =>
      exfalso
      obtain ⟨nd, hnd, -⟩ := frontier inv hroute inv.hgoal
      rw [popMin_eq_none.mp hp] at hnd
      simp at hnd
    | some v =>
      obtain ⟨current, rest⟩ := v
      by_cases hc : closed.contains ((current.col, current.row) : Cell) = true
      · -- pop of an already-closed node: skip
        have hstep : astar_loop tm gc gr maxLen (fuel + 1) openSet closed =
            astar_loop tm gc gr maxLen fuel rest closed := by
          rw [astar_loop, hp]
          dsimp only
          rw [if_pos hc]
        rw [hstep]
        have inv' : AInv tm s gc gr rest closed := by
          refine ⟨fun nd hnd => inv.hopen nd (popMin_subset hp nd hnd), ?_, ?_,
            inv.hgoal, inv.hclosedW⟩
          · rcases inv.hstart with hcl | ⟨nd, hnd, hcell, hg⟩
            · exact Or.inl hcl
            · rcases popMin_mem_iff hp nd hnd with hEq | hmem
              · subst hEq
                left
                rw [← hcell]
                exact hc
              · exact Or.inr ⟨nd, hmem, hcell, hg⟩
          · intro p hpc q hq
            rcases inv.hexp p hpc q hq with h | ⟨nd, hnd, hcell, hbound⟩
            · exact Or.inl h
            · rcases popMin_mem_iff hp nd hnd with hEq | hmem
              · subst hEq
                left
                rw [← hcell]
                exact hc
              · exact Or.inr ⟨nd, hmem, hcell, hbound⟩
        have hlen := popMin_length hp
        exact ih rest closed inv' (by omega)
      · -- pop of a new cell
        have hc' : closed.contains ((current.col, current.row) : Cell) = false := by
          simpa using hc
        have hcur := inv.hopen current (popMin_mem hp)
        have hopt := popped_g_le inv hp hc'
        by_cases hgt : (current.col == gc && current.row == gr) = true
        · -- goal reached
          have hgt' := hgt
          simp only [Bool.and_eq_true, beq_iff_eq] at hgt'
          obtain ⟨hcol, hrow⟩ := hgt'
          have hcr : ((current.col, current.row) : Cell) = ((gc, gr) : Cell) := by
            rw [hcol, hrow]
          have hg1 : current.g ≤ n := hopt n (by rw [hcr]; exact hroute)
          have hg2 : n ≤ current.g := by
            apply hshort
            have hR := chainOK.route hcur
            rw [hcr] at hR
            exact hR
          have hclen := chainOK.len_eq hcur
          have hstep : astar_loop tm gc gr maxLen (fuel + 1) openSet closed =
              reconstruct_from maxLen current [] 0 := by
            rw [astar_loop, hp]
            dsimp only
            rw [if_neg hc, if_pos hgt]
          rw [hstep, reconstruct_from_eq]
          constructor
          · intro hcap
            rw [if_neg (by omega)]
            refine ⟨_, rfl, ?_⟩
            simp only [List.reverse_nil, List.append_nil, List.length_map, chainCells_length]
            omega
          · intro hcap
            rw [if_pos (by omega)]
        · -- expand the popped node
          set closed' := (((current.col, current.row) : Cell) :: closed) with hclosedDef
          set nbs := get_neighbors tm current.col current.row with hnbs
          have hh : ∀ nd ∈ rest, nd.h = heuristic nd.col nd.row gc gr := fun nd hnd =>
            chainOK.h_eq (inv.hopen nd (popMin_subset hp nd hnd))
          obtain ⟨f1, f2, f3, f4, f5⟩ := fold_push_props tm gc gr current closed' nbs rest hh
          set openSet' := nbs.foldl (pushNeighbor tm gc gr current closed') rest with hopenDef
          have hstep : astar_loop tm gc gr maxLen (fuel + 1) openSet closed =
              astar_loop tm gc gr maxLen fuel openSet' closed' := by
            rw [astar_loop, hp]
            dsimp only
            rw [if_neg hc, if_neg hgt]
          rw [hstep]
          have hcontains' : ∀ x : Cell, closed'.contains x = true ↔
              (x = (current.col, current.row) ∨ closed.contains x = true) := by
            intro x
            rw [cell_contains_iff, hclosedDef, List.mem_cons]
            constructor
            · rintro (h | h)
              · exact Or.inl h
              · exact Or.inr (cell_contains_iff.mpr h)
            · rintro (h | h)
              · exact Or.inl h
              · exact Or.inr (cell_contains_iff.mp h)
          have inv' : AInv tm s gc gr openSet' closed' := by
            refine ⟨?_, ?_, ?_, ?_, ?_⟩
            · intro nd hnd
              rcases f2 nd hnd with hnd' | ⟨nb, hnb, hEq⟩
              · exact inv.hopen nd (popMin_subset hp nd hnd')
              · subst hEq
                exact newNode_chainOK hcur (hnbs ▸ hnb)
            · rcases inv.hstart with hcl | ⟨nd, hnd, hcell, hg⟩
              · exact Or.inl ((hcontains' s).mpr (Or.inr hcl))
              · rcases popMin_mem_iff hp nd hnd with hEq | hmem
                · subst hEq
                  left
                  apply (hcontains' s).mpr
                  left
                  rw [← hcell]
                  rfl
                · exact Or.inr ⟨nd, f1 nd hmem, hcell, hg⟩
            · intro p hpc q hq
              rcases (hcontains' p).mp hpc with hpcur | hpold
              · subst hpcur
                rcases f5 q (by rw [hnbs]; exact hq) with hqc | ⟨nd, hnd, hcell, hg⟩
                · exact Or.inl hqc
                · refine Or.inr ⟨nd, hnd, hcell, ?_⟩
                  intro m hm
                  have := hopt m hm
                  omega
              · rcases inv.hexp p hpold q hq with hqc | ⟨nd, hnd, hcell, hbound⟩
                · exact Or.inl ((hcontains' q).mpr (Or.inr hqc))
                · rcases popMin_mem_iff hp nd hnd with hEq | hmem
                  · subst hEq
                    apply Or.inl
                    apply (hcontains' q).mpr
                    left
                    rw [← hcell]
                    rfl
                  · exact Or.inr ⟨nd, f1 nd hmem, hcell, hbound⟩
            · rw [← Bool.not_eq_true]
              intro hcontr
              rcases (hcontains' (gc, gr)).mp hcontr with hEq | hold
              · apply hgt
                have h1 : gc = current.col := congrArg Prod.fst hEq
                have h2 : gr = current.row := congrArg Prod.snd hEq
                rw [Bool.and_eq_true, beq_iff_eq, beq_iff_eq]
                exact ⟨h1.symm, h2.symm⟩
              · rw [inv.hgoal] at hold
                simp at hold
            · intro p hpc
              rcases (hcontains' p).mp hpc with hEq | hold
              · subst hEq
                exact chainOK.walkable hcur
              · exact inv.hclosedW p hold
          have hinB : ((current.col, current.row) : Cell) ∈ B := hB _ _ (chainOK.walkable hcur)
          have hrem : remaining tm B closed = remaining tm B closed' + 1 := by
            unfold remaining
            have hSetEq :
                B.filter (fun p => is_walkable tm p.1 p.2 = true ∧ closed'.contains p = false)
                  = (B.filter (fun p => is_walkable tm p.1 p.2 = true ∧
                      closed.contains p = false)).erase ((current.col, current.row) : Cell) := by
              ext x
              simp only [Finset.mem_filter, Finset.mem_erase]
              constructor
              · rintro ⟨hxB, hxw, hxnc⟩
                have hx' := cell_contains_false_iff.mp hxnc
                rw [hclosedDef, List.mem_cons] at hx'
                push_neg at hx'
                exact ⟨hx'.1, hxB, hxw, cell_contains_false_iff.mpr hx'.2⟩
              · rintro ⟨hne, hxB, hxw, hxnc⟩
                refine ⟨hxB, hxw, ?_⟩
                rw [cell_contains_false_iff, hclosedDef, List.mem_cons]
                push_neg
                exact ⟨hne, cell_contains_false_iff.mp hxnc⟩
            have hmemFilter : ((current.col, current.row) : Cell) ∈
                B.filter (fun p => is_walkable tm p.1 p.2 = true ∧
                  closed.contains p = false) := by
              rw [Finset.mem_filter]
              exact ⟨hinB, chainOK.walkable hcur, hc'⟩
            rw [hSetEq, Finset.card_erase_of_mem hmemFilter]
            have := Finset.card_pos.mpr ⟨_, hmemFilter⟩
            omega
          have hlenO := popMin_length hp
          have hlenO' : openSet'.length ≤ rest.length + 4 := by
            have h4 := get_neighbors_length_le tm current.col current.row
            calc openSet'.length ≤ rest.length + nbs.length := f3
              _ ≤ rest.length + 4 := by rw [hnbs]; omega
          exact ih openSet' closed' inv' (by omega)

end Game

namespace Game

/-- When the goal cell is unreachable from the start cell, the A* loop
never returns a path. -/
theorem astar_unreachable {tm : Tile} {s : Cell} {gc gr : Int} {maxLen : Nat}
    (hunreach : ∀ m, ¬ Route tm s ((gc, gr) : Cell) m) :
    ∀ (fuel : Nat) (openSet : List ANode) (closed : List Cell),
      (∀ nd ∈ openSet, chainOK tm s gc gr nd) →
      astar_loop tm gc gr maxLen fuel openSet closed = none := by
  intro fuel
  induction fuel with
  | zero =>
    intro _ _ _
    rw [astar_loop]
  | succ fuel ih =>
    intro openSet closed hopen
    cases hp : popMin openSet with
    | none => rw [astar_loop, hp]
    | some v =>
      obtain ⟨current, rest⟩ := v
      rw [astar_loop, hp]
      dsimp only
      by_cases hc : closed.contains ((current.col, current.row) : Cell) = true
      · rw [if_pos hc]
        exact ih rest closed (fun nd hnd => hopen nd (popMin_subset hp nd hnd))
      · rw [if_neg hc]
        have hcur := hopen current (popMin_mem hp)
        by_cases hgt : (current.col == gc && current.row == gr) = true
        · exfalso
          simp only [Bool.and_eq_true, beq_iff_eq] at hgt
          have hR := chainOK.route hcur
          rw [hgt.1, hgt.2] at hR
          exact hunreach current.g hR
        · rw [if_neg hgt]
          have hh : ∀ nd ∈ rest, nd.h = heuristic nd.col nd.row gc gr := fun nd hnd =>
            chainOK.h_eq (hopen nd (popMin_subset hp nd hnd))
          obtain ⟨-, f2, -, -, -⟩ := fold_push_props tm gc gr current
            (((current.col, current.row) : Cell) :: closed)
            (get_neighbors tm current.col current.row) rest hh
          apply ih
          intro nd hnd
          rcases f2 nd hnd with h | ⟨nb, hnb, hEq⟩
          · exact hopen nd (popMin_subset hp nd h)
          · subst hEq
            exact newNode_chainOK hcur hnb

/-- `find_path` at cell level, on walkable start and goal cells, with
enough fuel and a positive cap: when the goal is reachable it returns a
path of exactly (shortest cell count) waypoints if that count fits the
cap and `none` if it exceeds the cap, and when the goal is unreachable it
returns `none`. -/
theorem find_path_cells_main {tm : Tile} {B : Finset Cell}
    (hB : ∀ c r : Int, is_walkable tm c r = true → ((c, r) : Cell) ∈ B)
    {sc sr gc gr : Int} (hsw : is_walkable tm sc sr = true)
    (hgw : is_walkable tm gc gr = true)
    {fuel : Nat} (hfuel : 1 + 5 * B.card ≤ fuel) {maxLen : Nat} (hcap : 1 ≤ maxLen) :
    (∀ n, Route tm (sc, sr) ((gc, gr) : Cell) n →
      (∀ m, Route tm (sc, sr) ((gc, gr) : Cell) m → n ≤ m) →
      (n + 1 ≤ maxLen → ∃ p, find_path_cells tm fuel sc sr gc gr maxLen = some p ∧
        p.length = n + 1) ∧
      (maxLen < n + 1 → find_path_cells tm fuel sc sr gc gr maxLen = none)) ∧
    ((∀ m, ¬ Route tm (sc, sr) ((gc, gr) : Cell) m) →
      find_path_cells tm fuel sc sr gc gr maxLen = none) := by
  by_cases hsame : ((sc == gc) && (sr == gr)) = true
  · have hEq : find_path_cells tm fuel sc sr gc gr maxLen = some [tile_to_world gc gr] := by
      unfold find_path_cells
      rw [if_pos hsw, if_pos hgw]
      dsimp only
      rw [if_pos hsame]
    simp only [Bool.and_eq_true, beq_iff_eq] at hsame
    have hcells : ((sc, sr) : Cell) = ((gc, gr) : Cell) := by
      rw [hsame.1, hsame.2]
    constructor
    · intro n hroute hmin
      have hzero : Route tm (sc, sr) ((gc, gr) : Cell) 0 := by
        rw [← hcells]
        exact Route.refl hsw
      have hn0 : n = 0 := Nat.le_zero.mp (hmin 0 hzero)
      subst hn0
      constructor
      · intro hfit
        exact ⟨[tile_to_world gc gr], hEq, by simp⟩
      · intro hover
        omega
    · intro hunreach
      exfalso
      apply hunreach 0
      rw [← hcells]
      exact Route.refl hsw
  · have hEq : find_path_cells tm fuel sc sr gc gr maxLen =
        astar_loop tm gc gr maxLen fuel
          [ANode.mk sc sr 0 (heuristic sc sr gc gr) none] [] := by
      unfold find_path_cells
      rw [if_pos hsw, if_pos hgw]
      dsimp only
      rw [if_neg hsame]
    rw [hEq]
    have hopen : ∀ nd ∈ [ANode.mk sc sr 0 (heuristic sc sr gc gr) none],
        chainOK tm (sc, sr) gc gr nd := by
      intro nd hnd
      simp only [List.mem_singleton] at hnd
      subst hnd
      rw [chainOK]
      exact ⟨hsw, rfl, rfl, rfl⟩
    constructor
    · intro n hroute hmin
      have inv : AInv tm (sc, sr) gc gr
          [ANode.mk sc sr 0 (heuristic sc sr gc gr) none] [] := by
        refine ⟨hopen, Or.inr ⟨_, List.mem_singleton.mpr rfl, rfl, rfl⟩, ?_, rfl, ?_⟩
        · intro p hpc
          simp [List.contains] at hpc
        · intro p hpc
          simp [List.contains] at hpc
      have hremB : remaining tm B [] ≤ B.card := Finset.card_filter_le _ _
      exact astar_main hB hroute hmin fuel _ [] inv (by simp; omega)
    · intro hunreach
      exact astar_unreachable hunreach fuel _ [] hopen

end Game

namespace Game

theorem not_walkable_of_wall {tm : Tile} {c r : Int} (h : tm c r = TILE_WALL) :
    is_walkable tm c r = false := by
  unfold is_walkable
  rw [h]
  rfl

theorem walkable_of_floor {tm : Tile} {c r : Int} (h : tm c r = TILE_FLOOR) :
    is_walkable tm c r = true := by
  unfold is_walkable
  rw [h]
  rfl

/-- A 3 × 3 all-floor room (as a `tile_at` function), concrete test grid. -/
def tmRoom : Tile := fun c r => if 0 ≤ c ∧ c < 3 ∧ 0 ≤ r ∧ r < 3 then '.' else '#'

def roomBox : Finset Cell := (Finset.Icc (0 : Int) 2) ×ˢ (Finset.Icc (0 : Int) 2)

theorem tmRoom_box : ∀ c r : Int, is_walkable tmRoom c r = true → ((c, r) : Cell) ∈ roomBox := by
  intro c r hw
  rw [roomBox, Finset.mem_product, Finset.mem_Icc, Finset.mem_Icc]
  by_cases hb : 0 ≤ c ∧ c < 3 ∧ 0 ≤ r ∧ r < 3
  · omega
  · exfalso
    have hwall : tmRoom c r = TILE_WALL := by
      unfold tmRoom
      rw [if_neg hb]
      rfl
    rw [not_walkable_of_wall hwall] at hw
    simp at hw

/-- A corridor of 1001 walkable cells `(0,0) .. (1000,0)`: its two ends are
connected but only by routes of at least 1000 steps, which overruns the
default reconstruction cap. -/
def tmCorridor : Tile := fun c r => if 0 ≤ c ∧ c ≤ 1000 ∧ r = 0 then '.' else '#'

def corridorBox : Finset Cell := (Finset.Icc (0 : Int) 1000) ×ˢ (Finset.Icc (0 : Int) 0)

theorem tmCorridor_box : ∀ c r : Int,
    is_walkable tmCorridor c r = true → ((c, r) : Cell) ∈ corridorBox := by
  intro c r hw
  rw [corridorBox, Finset.mem_product, Finset.mem_Icc, Finset.mem_Icc]
  by_cases hb : 0 ≤ c ∧ c ≤ 1000 ∧ r = 0
  · omega
  · exfalso
    have hwall : tmCorridor c r = TILE_WALL := by
      unfold tmCorridor
      rw [if_neg hb]
      rfl
    rw [not_walkable_of_wall hwall] at hw
    simp at hw

theorem corridorBox_card : corridorBox.card = 1001 := by
  rw [corridorBox, Finset.card_product]
  simp [Int.card_Icc]

attribute [irreducible] corridorBox

theorem tmCorridor_floor {c : Int} (h0 : 0 ≤ c) (h1 : c ≤ 1000) :
    tmCorridor c 0 = TILE_FLOOR := by
  unfold tmCorridor
  rw [if_pos ⟨h0, h1, rfl⟩]
  rfl

theorem corridor_route : ∀ k : Nat, k ≤ 1000 →
    Route tmCorridor ((0 : Int), (0 : Int)) ((((k : Nat) : Int), (0 : Int)) : Cell) k
  | 0, _ => by
    have hw := walkable_of_floor (tmCorridor_floor (le_refl 0) (by omega))
    simp only [Nat.cast_zero]
    exact Route.refl hw
  | k + 1, hk => by
    apply Route.tail (corridor_route k (by omega))
    apply mem_get_neighbors.mpr
    constructor
    · exact walkable_of_floor (tmCorridor_floor (by positivity) (by push_cast; omega))
    · push_cast
      omega

theorem corridor_min : ∀ m, Route tmCorridor ((0 : Int), (0 : Int))
    (((1000 : Int), (0 : Int)) : Cell) m → 1000 ≤ m := by
  intro m hm
  have h := Route.heuristic_le hm
  unfold heuristic at h
  omega

end Game

namespace Game

/-- C1 (amended).  On any finite tile grid (walkable cells bounded by a
finite box `B`), for world start/goal points whose grid cells are walkable
for customers, with enough fuel for the embedded loop and a positive
`max_path_length`: whenever the cells are joined by a walkable route,
`find_path` returns a waypoint sequence whose cell count equals the true
4-directional shortest-path cell count provided that count does not exceed
`max_path_length` — and returns `None` when the shortest count exceeds the
cap; for cells with no connecting walkable route it returns `None`. -/
theorem find_path_shortest_correct (tm : Tile) (B : Finset Cell)
    (hB : ∀ c r : Int, is_walkable tm c r = true → ((c, r) : Cell) ∈ B)
    (start goal : ℝ × ℝ) (fuel maxLen : Nat)
    (hsw : is_walkable tm (world_to_tile start).1 (world_to_tile start).2 = true)
    (hgw : is_walkable tm (world_to_tile goal).1 (world_to_tile goal).2 = true)
    (hfuel : 1 + 5 * B.card ≤ fuel) (hcap : 1 ≤ maxLen) :
    (∀ n, Route tm (world_to_tile start) (world_to_tile goal) n →
      (∀ m, Route tm (world_to_tile start) (world_to_tile goal) m → n ≤ m) →
      (n + 1 ≤ maxLen →
        ∃ p, find_path tm fuel start goal maxLen = some p ∧ p.length = n + 1) ∧
      (maxLen < n + 1 → find_path tm fuel start goal maxLen = none)) ∧
    ((∀ m, ¬ Route tm (world_to_tile start) (world_to_tile goal) m) →
      find_path tm fuel start goal maxLen = none) := by
  unfold find_path
  exact find_path_cells_main hB hsw hgw hfuel hcap

/-- C1 counterexample input facts: on the 1001-cell corridor, the cells of
the two world points are walkable and joined by a route of 1000 steps
(1001 cells), yet `find_path` with the default cap 1000 returns `none`. -/
theorem find_path_shortest_claim_false :
    is_walkable tmCorridor 0 0 = true ∧ is_walkable tmCorridor 1000 0 = true ∧
    Route tmCorridor ((0 : Int), (0 : Int)) (((1000 : Int), (0 : Int)) : Cell) 1000 ∧
    find_path tmCorridor 5007 ((60 : ℝ), (60 : ℝ)) ((120060 : ℝ), (60 : ℝ)) 1000 = none := by
  have hroute : Route tmCorridor ((0 : Int), (0 : Int)) (((1000 : Int), (0 : Int)) : Cell) 1000 := by
    have h := corridor_route 1000 (le_refl 1000)
    norm_num at h
    exact h
  refine ⟨by decide, by decide, hroute, ?_⟩
  have hstart : world_to_tile ((60 : ℝ), (60 : ℝ)) = ((0 : Int), (0 : Int)) := by
    unfold world_to_tile TILE_SIZE
    norm_num
  have hgoal : world_to_tile ((120060 : ℝ), (60 : ℝ)) = ((1000 : Int), (0 : Int)) := by
    unfold world_to_tile TILE_SIZE
    norm_num
  unfold find_path
  rw [hstart, hgoal]
  have hfuelc : 1 + 5 * corridorBox.card ≤ 5007 := by
    rw [corridorBox_card]
    norm_num
  have hswC : is_walkable tmCorridor 0 0 = true := by decide
  have hgwC : is_walkable tmCorridor 1000 0 = true := by decide
  have hmain := (find_path_cells_main tmCorridor_box hswC hgwC hfuelc
    (by norm_num : (1 : Nat) ≤ 1000)).1 1000 hroute corridor_min
  exact hmain.2 (by omega)

/-- Witness for the amended C1 theorem on a concrete 3 × 3 room. -/
theorem find_path_shortest_correct_witness :
    (is_walkable tmRoom (world_to_tile ((60 : ℝ), (60 : ℝ))).1
      (world_to_tile ((60 : ℝ), (60 : ℝ))).2 = true) ∧
    ((∀ n, Route tmRoom (world_to_tile ((60 : ℝ), (60 : ℝ)))
        (world_to_tile ((300 : ℝ), (60 : ℝ))) n →
      (∀ m, Route tmRoom (world_to_tile ((60 : ℝ), (60 : ℝ)))
        (world_to_tile ((300 : ℝ), (60 : ℝ))) m → n ≤ m) →
      (n + 1 ≤ 1000 → ∃ p, find_path tmRoom 100 ((60 : ℝ), (60 : ℝ))
        ((300 : ℝ), (60 : ℝ)) 1000 = some p ∧ p.length = n + 1) ∧
      (1000 < n + 1 → find_path tmRoom 100 ((60 : ℝ), (60 : ℝ))
        ((300 : ℝ), (60 : ℝ)) 1000 = none)) ∧
    ((∀ m, ¬ Route tmRoom (world_to_tile ((60 : ℝ), (60 : ℝ)))
        (world_to_tile ((300 : ℝ), (60 : ℝ))) m) →
      find_path tmRoom 100 ((60 : ℝ), (60 : ℝ)) ((300 : ℝ), (60 : ℝ)) 1000 = none)) := by
  have hs : world_to_tile ((60 : ℝ), (60 : ℝ)) = ((0 : Int), (0 : Int)) := by
    unfold world_to_tile TILE_SIZE
    norm_num
  have hg : world_to_tile ((300 : ℝ), (60 : ℝ)) = ((2 : Int), (0 : Int)) := by
    unfold world_to_tile TILE_SIZE
    norm_num
  constructor
  · rw [hs]
    decide
  · refine find_path_shortest_correct tmRoom roomBox tmRoom_box
      ((60 : ℝ), (60 : ℝ)) ((300 : ℝ), (60 : ℝ)) 100 1000 ?_ ?_ ?_ (by norm_num)
    · rw [hs]; decide
    · rw [hg]; decide
    · have : roomBox.card = 9 := by
        rw [roomBox, Finset.card_product]
        simp [Int.card_Icc]
      rw [this]
      norm_num

/-- C2.  Whenever `find_path` returns a path, the path is the list of
tile centres of a cell sequence in which every cell is walkable for
customers and consecutive cells are at grid Manhattan distance exactly 1
(a single-cell path having no consecutive pair). -/
theorem find_path_waypoints_valid (tm : Tile) (fuel maxLen : Nat) (start goal : ℝ × ℝ)
    (p : List (Int × Int)) (h : find_path tm fuel start goal maxLen = some p) :
    ∃ cells : List Cell, p = cells.map (fun pc => tile_to_world pc.1 pc.2) ∧
      (∀ pc ∈ cells, is_walkable tm pc.1 pc.2 = true) ∧
      List.Chain' (fun a b : Cell => (b.1 - a.1).natAbs + (b.2 - a.2).natAbs = 1) cells := by
  unfold find_path at h
  obtain ⟨cells, h1, h2, h3, -⟩ := find_path_cells_sound h
  exact ⟨cells, h1, h2, h3⟩

theorem find_path_waypoints_valid_witness :
    (find_path tmRoom 100 ((60 : ℝ), (60 : ℝ)) ((300 : ℝ), (60 : ℝ)) 1000 =
      some [(60, 60), (180, 60), (300, 60)]) ∧
    (∃ cells : List Cell,
      ([((60 : Int), (60 : Int)), (180, 60), (300, 60)] : List (Int × Int)) =
        cells.map (fun pc => tile_to_world pc.1 pc.2) ∧
      (∀ pc ∈ cells, is_walkable tmRoom pc.1 pc.2 = true) ∧
      List.Chain' (fun a b : Cell => (b.1 - a.1).natAbs + (b.2 - a.2).natAbs = 1) cells) := by
  have hs : world_to_tile ((60 : ℝ), (60 : ℝ)) = ((0 : Int), (0 : Int)) := by
    unfold world_to_tile TILE_SIZE
    norm_num
  have hg : world_to_tile ((300 : ℝ), (60 : ℝ)) = ((2 : Int), (0 : Int)) := by
    unfold world_to_tile TILE_SIZE
    norm_num
  have hsome : find_path tmRoom 100 ((60 : ℝ), (60 : ℝ)) ((300 : ℝ), (60 : ℝ)) 1000 =
      some [(60, 60), (180, 60), (300, 60)] := by
    unfold find_path
    rw [hs, hg]
    decide
  exact ⟨hsome, find_path_waypoints_valid tmRoom 100 1000 _ _ _ hsome⟩

/-- C6.  The reconstruction walk fails with `None` whenever the parent
chain holds more nodes than `max_path_length`, and consequently every
successfully returned path has at most `max_path_length` waypoints
(the cap being positive, as it is at every call site — default 1000). -/
theorem find_path_cap_enforced (maxLen : Nat) (hcap : 1 ≤ maxLen) :
    (∀ nd : ANode, maxLen < chainLen nd → reconstruct_from maxLen nd [] 0 = none) ∧
    (∀ (tm : Tile) (fuel : Nat) (start goal : ℝ × ℝ) (p : List (Int × Int)),
      find_path tm fuel start goal maxLen = some p → p.length ≤ maxLen) := by
  constructor
  · intro nd h
    exact reconstruct_overlong h
  · intro tm fuel start goal p h
    unfold find_path at h
    obtain ⟨-, -, -, -, h4⟩ := find_path_cells_sound h
    exact h4 hcap

theorem find_path_cap_enforced_witness :
    (1 ≤ 1000) ∧
    ((∀ nd : ANode, 1000 < chainLen nd → reconstruct_from 1000 nd [] 0 = none) ∧
    (∀ (tm : Tile) (fuel : Nat) (start goal : ℝ × ℝ) (p : List (Int × Int)),
      find_path tm fuel start goal 1000 = some p → p.length ≤ 1000)) :=
  ⟨by norm_num, find_path_cap_enforced 1000 (by norm_num)⟩

end Game

namespace Game

/-!
## `TileMap` from `map/tile_map.py`
-/

/-- `TileMap`: the stored `map_data` rows (each Python string modelled as
its list of characters). -/
structure TileMap where
  mapData : List (List Char)

/-- `self.rows = len(self.map_data)` from `TileMap.__init__`. -/
def TileMap.rows (tmap : TileMap) : Nat := tmap.mapData.length

/-- `self.cols = len(self.map_data[0]) if self.map_data else 0` from
`TileMap.__init__`. -/
def TileMap.cols (tmap : TileMap) : Nat :=
  match tmap.mapData with
  | [] => 0
  | row :: _ => row.length

/-- `TileMap.tile_at`: bounds-checked indexing, any out-of-bounds (col,
row) yielding the solid wall code.  The in-bounds double indexing
`self.map_data[row][col]` can raise in Python on a ragged grid; the
lookup is modelled with `Option`, `none` standing for that error. -/
def TileMap.tile_at (tmap : TileMap) (col row : Int) : Option Char :=
  if 0 ≤ row ∧ row < (tmap.rows : Int) ∧ 0 ≤ col ∧ col < (tmap.cols : Int) then
    (tmap.mapData.get? row.toNat).bind (fun rowData => rowData.get? col.toNat)
  else some TILE_WALL

/-- The `tile_at` interface the pathfinder duck-types, for a map whose
lookups succeed. -/
def TileMap.fn (tmap : TileMap) : Tile := fun c r => (tmap.tile_at c r).getD TILE_WALL

/-- `STORE_MAP` from `map/tile_map.py`. -/
def STORE_MAP : List (List Char) :=
  ["################O###",
   "#..................#",
   "#...N.......CCCCC..#",
   "#.SSSS........N....#",
   "#..................#",
   "#...N..............D",
   "#.SSSS....SSSS.....#",
   "#...........N......#",
   "#....N......N......#",
   "#.SSSS....SSSS.....#",
   "#..................#",
   "####################"].map String.toList

/-- C8.  On a rectangular map, `tile_at` returns the stored tile code for
every in-bounds (col, row), returns the solid wall code for every
out-of-bounds (col, row), is total, and an out-of-bounds cell is never
walkable for any agent type: the wall code is in both solidity sets and
the pathfinder's customer walkability test rejects it. -/
theorem tile_at_total (tmap : TileMap)
    (hrect : ∀ rowData ∈ tmap.mapData, rowData.length = tmap.cols) :
    ∀ col row : Int,
      ((0 ≤ row ∧ row < (tmap.rows : Int) ∧ 0 ≤ col ∧ col < (tmap.cols : Int)) →
        ∃ rowData c, tmap.mapData.get? row.toNat = some rowData ∧
          rowData.get? col.toNat = some c ∧ tmap.tile_at col row = some c) ∧
      (¬(0 ≤ row ∧ row < (tmap.rows : Int) ∧ 0 ≤ col ∧ col < (tmap.cols : Int)) →
        tmap.tile_at col row = some TILE_WALL) ∧
      (tmap.tile_at col row).isSome = true ∧
      (¬(0 ≤ row ∧ row < (tmap.rows : Int) ∧ 0 ≤ col ∧ col < (tmap.cols : Int)) →
        TILE_WALL ∈ CUSTOMER_SOLID_TILES ∧ TILE_WALL ∈ SOLID_TILES ∧
        is_walkable tmap.fn col row = false) := by
  intro col row
  have hmain : (0 ≤ row ∧ row < (tmap.rows : Int) ∧ 0 ≤ col ∧ col < (tmap.cols : Int)) →
      ∃ rowData c, tmap.mapData.get? row.toNat = some rowData ∧
        rowData.get? col.toNat = some c ∧ tmap.tile_at col row = some c := by
    rintro ⟨h1, h2, h3, h4⟩
    have hrow : row.toNat < tmap.mapData.length := by
      unfold TileMap.rows at h2
      omega
    have hgetrow := List.get?_eq_get hrow
    set rowData := tmap.mapData.get ⟨row.toNat, hrow⟩ with hrowDef
    have hlen : rowData.length = tmap.cols := hrect rowData (tmap.mapData.get_mem _ _)
    have hcol : col.toNat < rowData.length := by
      rw [hlen]
      omega
    have hgetcol := List.get?_eq_get hcol
    refine ⟨rowData, rowData.get ⟨col.toNat, hcol⟩, hgetrow, hgetcol, ?_⟩
    unfold TileMap.tile_at
    rw [if_pos ⟨h1, h2, h3, h4⟩, hgetrow]
    simpa using hgetcol
  refine ⟨hmain, ?_, ?_, ?_⟩
  · intro hob
    unfold TileMap.tile_at
    rw [if_neg hob]
  · by_cases hib : 0 ≤ row ∧ row < (tmap.rows : Int) ∧ 0 ≤ col ∧ col < (tmap.cols : Int)
    · obtain ⟨rowData, c, -, -, hsome⟩ := hmain hib
      rw [hsome]
      rfl
    · unfold TileMap.tile_at
      rw [if_neg hib]
      rfl
  · intro hob
    refine ⟨by decide, by decide, ?_⟩
    apply not_walkable_of_wall
    unfold TileMap.fn TileMap.tile_at
    rw [if_neg hob]
    rfl

theorem tile_at_total_witness :
    (∀ rowData ∈ (TileMap.mk STORE_MAP).mapData, rowData.length = (TileMap.mk STORE_MAP).cols) ∧
    (∀ col row : Int,
      ((0 ≤ row ∧ row < ((TileMap.mk STORE_MAP).rows : Int) ∧ 0 ≤ col ∧
          col < ((TileMap.mk STORE_MAP).cols : Int)) →
        ∃ rowData c, (TileMap.mk STORE_MAP).mapData.get? row.toNat = some rowData ∧
          rowData.get? col.toNat = some c ∧
          (TileMap.mk STORE_MAP).tile_at col row = some c) ∧
      (¬(0 ≤ row ∧ row < ((TileMap.mk STORE_MAP).rows : Int) ∧ 0 ≤ col ∧
          col < ((TileMap.mk STORE_MAP).cols : Int)) →
        (TileMap.mk STORE_MAP).tile_at col row = some TILE_WALL) ∧
      ((TileMap.mk STORE_MAP).tile_at col row).isSome = true ∧
      (¬(0 ≤ row ∧ row < ((TileMap.mk STORE_MAP).rows : Int) ∧ 0 ≤ col ∧
          col < ((TileMap.mk STORE_MAP).cols : Int)) →
        TILE_WALL ∈ CUSTOMER_SOLID_TILES ∧ TILE_WALL ∈ SOLID_TILES ∧
        is_walkable (TileMap.mk STORE_MAP).fn col row = false)) :=
  ⟨by decide, tile_at_total (TileMap.mk STORE_MAP) (by decide)⟩

end Game

namespace Game

/-!
## Entity-layer geometry

World positions are pairs of reals (the game uses Python floats, which we
idealise as `ℝ`).  `pygame.Rect` stores integers; constructing one from
floats truncates each component toward zero (C `int` conversion), and
`colliderect` is a strict-overlap test.
-/

abbrev Vec := ℝ × ℝ

/-- `pygame.Vector2.length`. -/
noncomputable def Vec.length (v : Vec) : ℝ := Real.sqrt (v.1 ^ 2 + v.2 ^ 2)

/-- Python `int()` on a float: truncation toward zero. -/
noncomputable def pyInt (x : ℝ) : ℤ := if 0 ≤ x then ⌊x⌋ else ⌈x⌉

/-- `pygame.Rect`: integer left/top/width/height. -/
structure Rect where
  x : ℤ
  y : ℤ
  w : ℤ
  h : ℤ

/-- `pygame.Rect(...)` on float arguments truncates each toward zero. -/
noncomputable def mkRect (x y w h : ℝ) : Rect := ⟨pyInt x, pyInt y, pyInt w, pyInt h⟩

/-- `pygame.Rect.colliderect`: strict overlap (degenerate rects never
collide). -/
def Rect.colliderect (a b : Rect) : Bool :=
  decide (a.x < b.x + b.w) && decide (a.y < b.y + b.h) &&
    decide (a.x + a.w > b.x) && decide (a.y + a.h > b.y)

/-- The `for tile_rect in solid_rects: if colliderect: ... break` loops:
net effect is an any-collision test. -/
def collideAnyRect (a : Rect) (solidRects : List Rect) : Bool :=
  solidRects.any (fun t => a.colliderect t)

/-- The square bounding box of an agent (`Customer.rect` and the test
rects built inside the steering routines). -/
noncomputable def agentRect (pos : Vec) (radius : ℝ) : Rect :=
  mkRect (pos.1 - radius) (pos.2 - radius) (radius * 2) (radius * 2)

/-- `FPS` from `config.py`. -/
def FPS : Nat := 60

/-- `PLAYER_RADIUS` from `config.py`: `14 * 3`. -/
noncomputable def PLAYER_RADIUS : ℝ := 14 * 3

/-- `PLAYER_SPEED` from `config.py`: `3.0 * 3`. -/
noncomputable def PLAYER_SPEED : ℝ := 3.0 * 3

/-- `CUSTOMER_RADIUS` from `config.py`. -/
noncomputable def CUSTOMER_RADIUS : ℝ := PLAYER_RADIUS

/-- `CUSTOMER_SPEED` from `config.py`. -/
noncomputable def CUSTOMER_SPEED : ℝ := PLAYER_SPEED / 2.0

/-- `Customer._move_towards` from `entities/customer.py`: strict
axis-separated steering at the full collision radius (attempt the X move,
revert on any collision of the full-radius box; then the Y move under the
same rule).  Returns the updated position and whether the target was
reached.  This routine takes no corner-cutting flag. -/
noncomputable def customerMoveTowards (pos : Vec) (radius : ℝ) (target : Vec) (dt : ℝ)
    (solidRects : List Rect) (proximityThreshold : ℝ) : Vec × Bool :=
  let direction : Vec := (target.1 - pos.1, target.2 - pos.2)
  let distance := direction.length
  if distance < proximityThreshold then (pos, true)
  else if distance < 1e-3 then (target, true)
  else
    let dirN : Vec := (direction.1 / distance, direction.2 / distance)
    let step := CUSTOMER_SPEED * dt * (FPS : ℝ)
    let x1 := pos.1 + dirN.1 * step
    let newX := if collideAnyRect (agentRect (x1, pos.2) radius) solidRects then pos.1 else x1
    let y1 := pos.2 + dirN.2 * step
    let newY := if collideAnyRect (agentRect (newX, y1) radius) solidRects then pos.2 else y1
    let newPos : Vec := (newX, newY)
    if Vec.length (target.1 - newPos.1, target.2 - newPos.2) < proximityThreshold then
      (newPos, true)
    else (newPos, false)

/-- The `would_collide` probe defined inside `ThiefCustomer._move_towards`
(and identically inside `LitterCustomer._move_towards`): the box is built
at an effective radius shrunk by `TILE_SIZE * 0.3` and floor-clamped to
40% of the radius — used for every probe, regardless of the routine's
`allow_corner_cutting` argument. -/
noncomputable def would_collide (radius : ℝ) (solidRects : List Rect) (pos : Vec) : Bool :=
  let phase_amount : ℝ := (TILE_SIZE : ℝ) * 0.3
  let effective_radius := max (radius - phase_amount) (radius * 0.4)
  collideAnyRect
    (mkRect (pos.1 - effective_radius) (pos.2 - effective_radius)
      (effective_radius * 2) (effective_radius * 2)) solidRects

/-- `ThiefCustomer._move_towards` from `entities/thief_customer.py`.
`LitterCustomer._move_towards` is the same routine without the
`use_player_speed` parameter (i.e. this definition applied with
`usePlayerSpeed := false`).  Strategy 1: full diagonal move; strategy 2:
the larger-magnitude axis first, then the other axis; strategy 3:
perpendicular half-step slides; else stay.  The `allowCornerCutting`
parameter is accepted but never read in the body, exactly as in the
source; every probe is the shrunk-radius `would_collide`. -/
noncomputable def thiefMoveTowards (pos : Vec) (radius : ℝ) (target : Vec) (dt : ℝ)
    (solidRects : List Rect) (proximityThreshold : ℝ) (doorRects : List Rect)
    (allowCornerCutting : Bool) (usePlayerSpeed : Bool) : Vec × Bool :=
  let direction : Vec := (target.1 - pos.1, target.2 - pos.2)
  let distance := direction.length
  if distance < proximityThreshold then (pos, true)
  else if distance < 1e-3 then (target, true)
  else
    let dirN : Vec := (direction.1 / distance, direction.2 / distance)
    let speed := if usePlayerSpeed then PLAYER_SPEED else CUSTOMER_SPEED
    let step := speed * dt * (FPS : ℝ)
    let move_x := dirN.1 * step
    let move_y := dirN.2 * step
    let perp_x := -dirN.2 * step * 0.5
    let perp_y := dirN.1 * step * 0.5
    let slide : Vec :=
      if !(would_collide radius solidRects (pos.1 + perp_x, pos.2 + perp_y)) then
        (pos.1 + perp_x, pos.2 + perp_y)
      else if !(would_collide radius solidRects (pos.1 - perp_x, pos.2 - perp_y)) then
        (pos.1 - perp_x, pos.2 - perp_y)
      else pos
    let newPos : Vec :=
      if !(would_collide radius solidRects (pos.1 + move_x, pos.2 + move_y)) then
        (pos.1 + move_x, pos.2 + move_y)
      else if |move_x| > |move_y| then
        if !(would_collide radius solidRects (pos.1 + move_x, pos.2)) then
          (pos.1 + move_x, pos.2)
        else if !(would_collide radius solidRects (pos.1, pos.2 + move_y)) then
          (pos.1, pos.2 + move_y)
        else slide
      else
        if !(would_collide radius solidRects (pos.1, pos.2 + move_y)) then
          (pos.1, pos.2 + move_y)
        else if !(would_collide radius solidRects (pos.1 + move_x, pos.2)) then
          (pos.1 + move_x, pos.2)
        else slide
    if Vec.length (target.1 - newPos.1, target.2 - newPos.2) < proximityThreshold then
      (newPos, true)
    else (newPos, false)

end Game

namespace Game

/-!
## Helpers for evaluating the steering routines on concrete inputs
-/

theorem pyInt_eq_of_nonneg {x : ℝ} {z : ℤ} (h0 : 0 ≤ x) (h1 : (z : ℝ) ≤ x) (h2 : x < z + 1) :
    pyInt x = z := by
  unfold pyInt
  rw [if_pos h0, Int.floor_eq_iff]
  exact ⟨h1, h2⟩

theorem pyInt_eq_of_neg {x : ℝ} {z : ℤ} (h0 : ¬ 0 ≤ x) (h1 : (z : ℝ) - 1 < x) (h2 : x ≤ z) :
    pyInt x = z := by
  unfold pyInt
  rw [if_neg h0, Int.ceil_eq_iff]
  exact ⟨h1, h2⟩

theorem vec_length_horiz (a : ℝ) : Vec.length (a, 0) = |a| := by
  unfold Vec.length
  rw [show a ^ 2 + (0:ℝ) ^ 2 = a ^ 2 by ring]
  exact Real.sqrt_sq_eq_abs a

theorem cx_len : Vec.length ((100:ℝ) - 0, (0:ℝ) - 0) = 100 := by
  unfold Vec.length
  rw [show ((100:ℝ) - 0) ^ 2 + ((0:ℝ) - 0) ^ 2 = 100 ^ 2 by norm_num]
  rw [Real.sqrt_sq (by norm_num)]

/-- On the counterexample input, the shrunk-radius probe at the diagonal
destination is clear: the shrunk box ends at x = -12 + 33 = 21 < 30. -/
theorem cx_shrunk_clear :
    would_collide 42 [⟨30, -10, 20, 20⟩] ((9/2 : ℝ), 0) = false := by
  unfold would_collide collideAnyRect mkRect Rect.colliderect TILE_SIZE
  norm_num
  have p1 : pyInt ((-(123/10)) : ℝ) = -12 :=
    pyInt_eq_of_neg (by norm_num) (by norm_num) (by norm_num)
  have p2 : pyInt ((-(84/5)) : ℝ) = -16 :=
    pyInt_eq_of_neg (by norm_num) (by norm_num) (by norm_num)
  have p3 : pyInt ((168/5 : ℝ)) = 33 :=
    pyInt_eq_of_nonneg (by norm_num) (by norm_num) (by norm_num)
  rw [p1, p2, p3]
  decide

/-- At the full 42-pixel radius the same destination overlaps the
obstacle: the full box spans x ∈ [-37, 47). -/
theorem cx_full_overlap :
    collideAnyRect (agentRect ((9/2 : ℝ), 0) 42) [⟨30, -10, 20, 20⟩] = true := by
  unfold agentRect collideAnyRect mkRect Rect.colliderect
  norm_num
  have q1 : pyInt ((-(75/2)) : ℝ) = -37 :=
    pyInt_eq_of_neg (by norm_num) (by norm_num) (by norm_num)
  have q2 : pyInt ((-42 : ℝ)) = -42 :=
    pyInt_eq_of_neg (by norm_num) (by norm_num) (by norm_num)
  have q3 : pyInt ((84 : ℝ)) = 84 :=
    pyInt_eq_of_nonneg (by norm_num) (by norm_num) (by norm_num)
  rw [q1, q2, q3]
  decide

theorem cx_full_overlap_origin :
    collideAnyRect (agentRect ((0 : ℝ), 0) 42) [⟨30, -10, 20, 20⟩] = true := by
  unfold agentRect collideAnyRect mkRect Rect.colliderect
  norm_num
  have q2 : pyInt ((-42 : ℝ)) = -42 :=
    pyInt_eq_of_neg (by norm_num) (by norm_num) (by norm_num)
  have q3 : pyInt ((84 : ℝ)) = 84 :=
    pyInt_eq_of_nonneg (by norm_num) (by norm_num) (by norm_num)
  rw [q2, q3]
  decide

/-- The thief/litterer steering on the counterexample input, with
corner-cutting *disabled*: it still moves diagonally to (4.5, 0). -/
theorem cx_eval_thief :
    thiefMoveTowards ((0:ℝ), 0) 42 ((100:ℝ), 0) (1/60) [⟨30, -10, 20, 20⟩] 36 [] false false
      = ((9/2, 0), false) := by
  unfold thiefMoveTowards
  dsimp only
  rw [cx_len]
  rw [if_neg (by norm_num), if_neg (by norm_num)]
  norm_num [CUSTOMER_SPEED, PLAYER_SPEED, FPS, cx_shrunk_clear]
  rw [vec_length_horiz, abs_of_nonneg (by norm_num : (0:ℝ) ≤ 191/2)]
  norm_num

/-- The basic customer's strict axis-separated steering on the same
input: both axis moves collide at the full radius and are reverted. -/
theorem cx_eval_customer :
    customerMoveTowards ((0:ℝ), 0) 42 ((100:ℝ), 0) (1/60) [⟨30, -10, 20, 20⟩] 36
      = ((0, 0), false) := by
  unfold customerMoveTowards
  dsimp only
  rw [cx_len]
  rw [if_neg (by norm_num), if_neg (by norm_num)]
  norm_num [CUSTOMER_SPEED, PLAYER_SPEED, FPS, cx_full_overlap, cx_full_overlap_origin]
  rw [vec_length_horiz, abs_of_nonneg (by norm_num : (0:ℝ) ≤ 100)]
  norm_num

end Game

namespace Game

/-- C3 (amended).  The thief/litterer steering routine accepts the
corner-cutting flag but ignores it: the result is identical for any two
flag values, and (when the agent is not already within the proximity
threshold and the shrunk-radius diagonal probe is clear) it moves
diagonally by the full step even with the flag disabled — the probe
`would_collide` always uses the shrunk effective radius.  The strict
axis-separated policy at the full radius is implemented only by the basic
customer's `customerMoveTowards`, which takes no flag: movement policy is
selected by agent class, not per call. -/
theorem thief_steering_policy_not_flag_selected
    (pos : Vec) (radius : ℝ) (target : Vec) (dt : ℝ) (solidRects : List Rect) (prox : ℝ)
    (doorRects : List Rect) (ups flag flag' : Bool)
    (hfar : ¬ Vec.length (target.1 - pos.1, target.2 - pos.2) < prox)
    (hnz : ¬ Vec.length (target.1 - pos.1, target.2 - pos.2) < 1e-3)
    (hdiag : would_collide radius solidRects
      (pos.1 + (target.1 - pos.1) / Vec.length (target.1 - pos.1, target.2 - pos.2) *
        ((if ups = true then PLAYER_SPEED else CUSTOMER_SPEED) * dt * (FPS : ℝ)),
       pos.2 + (target.2 - pos.2) / Vec.length (target.1 - pos.1, target.2 - pos.2) *
        ((if ups = true then PLAYER_SPEED else CUSTOMER_SPEED) * dt * (FPS : ℝ))) = false) :
    thiefMoveTowards pos radius target dt solidRects prox doorRects flag ups =
      thiefMoveTowards pos radius target dt solidRects prox doorRects flag' ups ∧
    (thiefMoveTowards pos radius target dt solidRects prox doorRects flag ups).1 =
      (pos.1 + (target.1 - pos.1) / Vec.length (target.1 - pos.1, target.2 - pos.2) *
        ((if ups = true then PLAYER_SPEED else CUSTOMER_SPEED) * dt * (FPS : ℝ)),
       pos.2 + (target.2 - pos.2) / Vec.length (target.1 - pos.1, target.2 - pos.2) *
        ((if ups = true then PLAYER_SPEED else CUSTOMER_SPEED) * dt * (FPS : ℝ))) := by
  constructor
  · rfl
  · unfold thiefMoveTowards
    dsimp only
    rw [if_neg hfar, if_neg hnz, hdiag]
    norm_num
    all_goals rw [apply_ite Prod.fst]
    all_goals simp

/-- C3 counterexample: with corner-cutting disabled, the thief steering
does not follow the claimed strict axis-separated full-radius policy — it
moves diagonally to (4.5, 0), whose full-radius bounding box overlaps the
obstacle, while the strict policy (the basic customer's routine) reverts
both axis moves and stays at the origin. -/
theorem thief_steering_strict_claim_false :
    thiefMoveTowards ((0:ℝ), 0) 42 ((100:ℝ), 0) (1/60) [⟨30, -10, 20, 20⟩] 36 [] false false
      = ((9/2, 0), false) ∧
    collideAnyRect (agentRect ((9/2 : ℝ), 0) 42) [⟨30, -10, 20, 20⟩] = true ∧
    customerMoveTowards ((0:ℝ), 0) 42 ((100:ℝ), 0) (1/60) [⟨30, -10, 20, 20⟩] 36
      = ((0, 0), false) :=
  ⟨cx_eval_thief, cx_full_overlap, cx_eval_customer⟩


end Game

namespace Game

theorem thief_steering_policy_not_flag_selected_witness :
    (¬ Vec.length ((100:ℝ) - 0, (0:ℝ) - 0) < 36) ∧
    (thiefMoveTowards ((0:ℝ), 0) 42 ((100:ℝ), 0) (1/60) [⟨30, -10, 20, 20⟩] 36 [] false false =
        thiefMoveTowards ((0:ℝ), 0) 42 ((100:ℝ), 0) (1/60) [⟨30, -10, 20, 20⟩] 36 [] true false ∧
      (thiefMoveTowards ((0:ℝ), 0) 42 ((100:ℝ), 0) (1/60) [⟨30, -10, 20, 20⟩] 36 [] false
          false).1 =
        ((0:ℝ) + ((100:ℝ) - 0) / Vec.length ((100:ℝ) - 0, (0:ℝ) - 0) *
          ((if (false : Bool) = true then PLAYER_SPEED else CUSTOMER_SPEED) * (1/60) * (FPS : ℝ)),
         (0:ℝ) + ((0:ℝ) - 0) / Vec.length ((100:ℝ) - 0, (0:ℝ) - 0) *
          ((if (false : Bool) = true then PLAYER_SPEED else CUSTOMER_SPEED) * (1/60) *
            (FPS : ℝ)))) := by
  have hfar : ¬ Vec.length ((100:ℝ) - 0, (0:ℝ) - 0) < 36 := by
    rw [cx_len]
    norm_num
  have hnz : ¬ Vec.length ((100:ℝ) - 0, (0:ℝ) - 0) < 1e-3 := by
    rw [cx_len]
    norm_num
  have hdiag : would_collide 42 [⟨30, -10, 20, 20⟩]
      ((0:ℝ) + ((100:ℝ) - 0) / Vec.length ((100:ℝ) - 0, (0:ℝ) - 0) *
        ((if (false : Bool) = true then PLAYER_SPEED else CUSTOMER_SPEED) * (1/60) * (FPS : ℝ)),
       (0:ℝ) + ((0:ℝ) - 0) / Vec.length ((100:ℝ) - 0, (0:ℝ) - 0) *
        ((if (false : Bool) = true then PLAYER_SPEED else CUSTOMER_SPEED) * (1/60) *
          (FPS : ℝ))) = false := by
    rw [cx_len]
    have hpair : ((0:ℝ) + ((100:ℝ) - 0) / 100 *
        ((if (false : Bool) = true then PLAYER_SPEED else CUSTOMER_SPEED) * (1/60) * (FPS : ℝ)),
       (0:ℝ) + ((0:ℝ) - 0) / 100 *
        ((if (false : Bool) = true then PLAYER_SPEED else CUSTOMER_SPEED) * (1/60) *
          (FPS : ℝ))) = ((9/2 : ℝ), (0 : ℝ)) := by
      norm_num [CUSTOMER_SPEED, PLAYER_SPEED, FPS]
    rw [hpair]
    exact cx_shrunk_clear
  exact ⟨hfar, thief_steering_policy_not_flag_selected ((0:ℝ), 0) 42 ((100:ℝ), 0) (1/60)
    [⟨30, -10, 20, 20⟩] 36 [] false false true hfar hnz hdiag⟩

end Game

namespace Game

/-!
## Path-following navigation (`ThiefCustomer._follow_path`, identical in
`LitterCustomer._follow_path`)

The navigation-relevant fields of the agent are collected into `NavState`;
`computePath` embeds `_compute_path`, `followDispatch` the path-following
tail of `_follow_path`, `followFallback` its direct-movement fallback, and
`followPath` the whole routine (returning the updated state and the
routine's boolean result).
-/

/-- The navigation fields of a `ThiefCustomer` / `LitterCustomer`:
`position`, `tile_map`, `path`, `path_index`,
`_last_path_recompute_pos`, `_stuck_timer`, `_last_position`. -/
structure NavState where
  position : Vec
  tileMap : Option Tile
  path : Option (List (Int × Int))
  pathIndex : Nat
  lastPathRecomputePos : Option Vec
  stuckTimer : ℝ
  lastPosition : Vec

/-- `ThiefCustomer._compute_path`: with a tile map, run `find_path` from the
current position and reset the follow bookkeeping; with no tile map, only
clear the path. -/
noncomputable def computePath (fuel : Nat) (st : NavState) (target : Vec) : NavState :=
  match st.tileMap with
  | some tm =>
    { st with
      path := find_path tm fuel st.position target 1000
      pathIndex := 0
      stuckTimer := 0
      lastPosition := st.position }
  | none => { st with path := none }

/-- The fallback tail of `_follow_path`: the path is absent or exhausted, so
occasionally recompute it (when no recompute position is recorded, or the
agent moved more than two tiles since the last one) and steer directly at
the target. -/
noncomputable def followFallback (fuel : Nat) (st : NavState) (dt : ℝ)
    (solidRects : List Rect) (target : Vec) (radius : ℝ) (proximityThreshold : ℝ)
    (doorRects : List Rect) (allowCornerCutting : Bool) : NavState × Bool :=
  let pathExhausted : Bool :=
    match st.path with
    | none => true
    | some p => decide (p.length ≤ st.pathIndex)
  let st1 :=
    if pathExhausted then
      let recomputeOK : Bool :=
        match st.lastPathRecomputePos with
        | none => true
        | some lp =>
          if (TILE_SIZE : ℝ) * 2 <
              Vec.length (st.position.1 - lp.1, st.position.2 - lp.2) then true else false
      if recomputeOK then
        let c := computePath fuel st target
        { c with lastPathRecomputePos := some c.position }
      else st
    else st
  let mv := thiefMoveTowards st1.position radius target dt solidRects proximityThreshold
      doorRects allowCornerCutting false
  ({ st1 with position := mv.1 }, mv.2)

/-- The `if self.path and len(self.path) > 0 and self.path_index < len(self.path)`
dispatch of `_follow_path`: follow the next waypoint (advancing past it
within the enlarged waypoint threshold), else fall back. -/
noncomputable def followDispatch (fuel : Nat) (st : NavState) (dt : ℝ)
    (solidRects : List Rect) (target : Vec) (radius : ℝ) (proximityThreshold : ℝ)
    (doorRects : List Rect) (allowCornerCutting : Bool) : NavState × Bool :=
  match st.path with
  | some p =>
    if 0 < p.length ∧ st.pathIndex < p.length then
      let wp0 := p.getD st.pathIndex (0, 0)
      let waypointThreshold := max proximityThreshold ((TILE_SIZE : ℝ) * 0.5)
      if Vec.length (st.position.1 - (wp0.1 : ℝ), st.position.2 - (wp0.2 : ℝ)) <
          waypointThreshold then
        let st3 := { st with pathIndex := st.pathIndex + 1 }
        if p.length ≤ st3.pathIndex then
          (st3,
            if Vec.length (st3.position.1 - target.1, st3.position.2 - target.2) <
                proximityThreshold then true else false)
        else
          let wp1 := p.getD st3.pathIndex (0, 0)
          let mv := thiefMoveTowards st3.position radius ((wp1.1 : ℝ), (wp1.2 : ℝ)) dt
              solidRects waypointThreshold doorRects allowCornerCutting false
          ({ st3 with position := mv.1 }, false)
      else
        let mv := thiefMoveTowards st.position radius ((wp0.1 : ℝ), (wp0.2 : ℝ)) dt
            solidRects waypointThreshold doorRects allowCornerCutting false
        ({ st with position := mv.1 }, false)
    else
      followFallback fuel st dt solidRects target radius proximityThreshold doorRects
        allowCornerCutting
  | none =>
      followFallback fuel st dt solidRects target radius proximityThreshold doorRects
        allowCornerCutting

/-- `ThiefCustomer._follow_path` (and the identical
`LitterCustomer._follow_path`): early return when within the proximity
threshold; stuck-timer accumulation when the displacement since the last
recorded position is below `TILE_SIZE * 0.1`; forced path recomputation and
timer reset once the timer exceeds `0.2`; then the waypoint dispatch. -/
noncomputable def followPath (fuel : Nat) (st : NavState) (dt : ℝ)
    (solidRects : List Rect) (target : Vec) (radius : ℝ) (proximityThreshold : ℝ)
    (doorRects : List Rect) (allowCornerCutting : Bool) : NavState × Bool :=
  if Vec.length (st.position.1 - target.1, st.position.2 - target.2) <
      proximityThreshold then
    ({ st with stuckTimer := 0 }, true)
  else
    let movementDistance :=
      Vec.length (st.position.1 - st.lastPosition.1, st.position.2 - st.lastPosition.2)
    let st1 :=
      if movementDistance < (TILE_SIZE : ℝ) * 0.1 then
        { st with stuckTimer := st.stuckTimer + dt }
      else
        { st with stuckTimer := 0, lastPosition := st.position }
    let st2 :=
      if st1.stuckTimer > 0.2 then
        let c := computePath fuel st1 target
        { c with stuckTimer := 0, lastPosition := c.position }
      else st1
    followDispatch fuel st2 dt solidRects target radius proximityThreshold doorRects
      allowCornerCutting

theorem computePath_position (fuel : Nat) (st : NavState) (target : Vec) :
    (computePath fuel st target).position = st.position := by
  unfold computePath
  cases st.tileMap <;> rfl

theorem computePath_tileMap (fuel : Nat) (st : NavState) (target : Vec) :
    (computePath fuel st target).tileMap = st.tileMap := by
  unfold computePath
  cases h : st.tileMap <;> simp

/-- The path computed by `_compute_path` depends only on the position and
tile map of the state. -/
theorem computePath_path_eq (fuel : Nat) (st st' : NavState) (target : Vec)
    (hp : st.position = st'.position) (ht : st.tileMap = st'.tileMap) :
    (computePath fuel st target).path = (computePath fuel st' target).path := by
  unfold computePath
  rw [ht]
  cases st'.tileMap with
  | none => rfl
  | some tm => dsimp only; rw [hp]

/-- The fallback either leaves path and stuck timer alone (up to a
recompute from the same position), or performs a recompute that zeroes the
timer. -/
theorem followFallback_path_timer (fuel : Nat) (st : NavState) (dt : ℝ)
    (solidRects : List Rect) (target : Vec) (radius : ℝ) (prox : ℝ)
    (doorRects : List Rect) (acc : Bool) :
    ((followFallback fuel st dt solidRects target radius prox doorRects acc).1.path
        = (computePath fuel st target).path ∨
      (followFallback fuel st dt solidRects target radius prox doorRects acc).1.path
        = st.path) ∧
    (followFallback fuel st dt solidRects target radius prox doorRects acc).1.stuckTimer
        = st.stuckTimer ∨
    (followFallback fuel st dt solidRects target radius prox doorRects acc).1.path
        = (computePath fuel st target).path ∧
    (followFallback fuel st dt solidRects target radius prox doorRects acc).1.stuckTimer
        = 0 := by
  unfold followFallback
  dsimp only
  split
  · split
    · cases htm : st.tileMap with
      | none =>
        left
        constructor
        · left
          unfold computePath
          rw [htm]
        · unfold computePath
          rw [htm]
      | some tm =>
        right
        constructor
        · unfold computePath
          rw [htm]
        · unfold computePath
          rw [htm]
    · left
      exact ⟨Or.inr rfl, rfl⟩
  · left
    exact ⟨Or.inr rfl, rfl⟩

/-- The waypoint dispatch never touches the path or the stuck timer except
through the fallback's recompute. -/
theorem followDispatch_path_timer (fuel : Nat) (st : NavState) (dt : ℝ)
    (solidRects : List Rect) (target : Vec) (radius : ℝ) (prox : ℝ)
    (doorRects : List Rect) (acc : Bool) :
    ((followDispatch fuel st dt solidRects target radius prox doorRects acc).1.path
        = (computePath fuel st target).path ∨
      (followDispatch fuel st dt solidRects target radius prox doorRects acc).1.path
        = st.path) ∧
    (followDispatch fuel st dt solidRects target radius prox doorRects acc).1.stuckTimer
        = st.stuckTimer ∨
    (followDispatch fuel st dt solidRects target radius prox doorRects acc).1.path
        = (computePath fuel st target).path ∧
    (followDispatch fuel st dt solidRects target radius prox doorRects acc).1.stuckTimer
        = 0 := by
  unfold followDispatch
  cases hp : st.path with
  | none =>
    dsimp only
    have h2 := followFallback_path_timer fuel st dt solidRects target radius prox doorRects acc
    rw [hp] at h2
    exact h2
  | some p =>
    dsimp only
    split
    · split
      · split
        · exact Or.inl ⟨Or.inr rfl, rfl⟩
        · exact Or.inl ⟨Or.inr rfl, rfl⟩
      · exact Or.inl ⟨Or.inr rfl, rfl⟩
    · have h2 := followFallback_path_timer fuel st dt solidRects target radius prox doorRects acc
      rw [hp] at h2
      exact h2

/-- C4.  On any `_follow_path` update in which the agent is not yet within
the proximity threshold of its target, its displacement since the last
recorded position is below the small-movement threshold
(`TILE_SIZE * 0.1`), and the accumulated stuck timer (after adding `dt`)
exceeds `0.2` seconds, the update recomputes the path toward the current
target — the resulting path object is the one `_compute_path` produces from
the current position — and resets the stuck timer to zero. -/
theorem thief_stuck_timer_recompute (fuel : Nat) (st : NavState) (dt : ℝ)
    (solidRects : List Rect) (target : Vec) (radius : ℝ) (prox : ℝ)
    (doorRects : List Rect) (acc : Bool)
    (hfar : ¬ Vec.length (st.position.1 - target.1, st.position.2 - target.2) < prox)
    (hsmall : Vec.length (st.position.1 - st.lastPosition.1,
        st.position.2 - st.lastPosition.2) < (TILE_SIZE : ℝ) * 0.1)
    (hstuck : st.stuckTimer + dt > 0.2) :
    (followPath fuel st dt solidRects target radius prox doorRects acc).1.path
        = (computePath fuel st target).path ∧
    (followPath fuel st dt solidRects target radius prox doorRects acc).1.stuckTimer
        = 0 := by
  unfold followPath
  rw [if_neg hfar]
  dsimp only
  rw [if_pos hsmall, if_pos hstuck]
  rcases followDispatch_path_timer fuel
      { computePath fuel { st with stuckTimer := st.stuckTimer + dt } target with
        stuckTimer := 0,
        lastPosition :=
          (computePath fuel { st with stuckTimer := st.stuckTimer + dt } target).position }
      dt solidRects target radius prox doorRects acc with
    ⟨hp | hp, ht⟩ | ⟨hp, ht⟩
  · constructor
    · rw [hp]
      exact computePath_path_eq fuel _ st target
        (computePath_position fuel { st with stuckTimer := st.stuckTimer + dt } target)
        (computePath_tileMap fuel { st with stuckTimer := st.stuckTimer + dt } target)
    · exact ht
  · constructor
    · rw [hp]
      exact computePath_path_eq fuel { st with stuckTimer := st.stuckTimer + dt } st target
        rfl rfl
    · exact ht
  · constructor
    · rw [hp]
      exact computePath_path_eq fuel _ st target
        (computePath_position fuel { st with stuckTimer := st.stuckTimer + dt } target)
        (computePath_tileMap fuel { st with stuckTimer := st.stuckTimer + dt } target)
    · exact ht

/-- Witness for C4 at a concrete stuck state: position `(60, 60)` equal to
the last recorded position, stuck timer `0.15`, `dt = 0.1`, target
`(300, 60)` on the 3 × 3 room. -/
theorem thief_stuck_timer_recompute_witness :
    (followPath 100 ⟨(60, 60), some tmRoom, some [(60, 60)], 5, none, 0.15, (60, 60)⟩ 0.1 []
        (300, 60) 42 36 [] false).1.path
      = (computePath 100 ⟨(60, 60), some tmRoom, some [(60, 60)], 5, none, 0.15, (60, 60)⟩
          (300, 60)).path ∧
    (followPath 100 ⟨(60, 60), some tmRoom, some [(60, 60)], 5, none, 0.15, (60, 60)⟩ 0.1 []
        (300, 60) 42 36 [] false).1.stuckTimer = 0 :=
  thief_stuck_timer_recompute 100
    ⟨(60, 60), some tmRoom, some [(60, 60)], 5, none, 0.15, (60, 60)⟩ 0.1 [] (300, 60) 42 36
    [] false
    (by
      show ¬ Vec.length ((60:ℝ) - 300, (60:ℝ) - 60) < 36
      rw [show ((60:ℝ) - 300, (60:ℝ) - 60) = ((-240 : ℝ), (0 : ℝ)) by norm_num,
        vec_length_horiz]
      norm_num)
    (by
      show Vec.length ((60:ℝ) - 60, (60:ℝ) - 60) < (TILE_SIZE : ℝ) * 0.1
      rw [show ((60:ℝ) - 60, (60:ℝ) - 60) = ((0 : ℝ), (0 : ℝ)) by norm_num,
        vec_length_horiz]
      norm_num [TILE_SIZE])
    (by norm_num)

end Game

namespace Game

/-!
## Entity state machines

`ThiefCustomer` and `LitterCustomer` from `entities/thief_customer.py` and
`entities/litter_customer.py`, and the basic `Customer` constructor from
`entities/customer.py`.  Randomness (`random.choice`, `random.uniform`,
`random.randint`) is supplied through the `RandDraws` oracle; code paths on
which Python would raise (a `None` target reaching arithmetic, or
`random.choice` of an empty list) yield `none`.
-/

/-- `pygame.Vector2.normalize` / `normalize_ip`. -/
noncomputable def Vec.normalize (v : Vec) : Vec := (v.1 / Vec.length v, v.2 / Vec.length v)

/-- `pygame.Vector2.dot`. -/
noncomputable def Vec.dot (a b : Vec) : ℝ := a.1 * b.1 + a.2 * b.2

/-- `math.atan2`, as the argument of the complex number `x + y*i`. -/
noncomputable def atan2 (y x : ℝ) : ℝ := Complex.arg ⟨x, y⟩

/-- `random.choice`, with the draw supplied as an oracle index `k`; `none`
exactly when the list is empty (where Python raises `IndexError`). -/
def randChoice {α : Type} (l : List α) (k : Nat) : Option α := l.get? (k % l.length)

/-- A currency item (`Cash`): Python compares these by object identity, which
we model with a unique `id`. -/
structure Cash where
  id : Nat
  pos : Vec

/-- Oracle inputs for every `random.uniform` / `random.choice` /
`random.randint` draw an update or constructor can make: one field per draw
site. -/
structure RandDraws where
  browseTime : ℝ
  lookDelay : ℝ
  pauseTime : ℝ
  buyTime : ℝ
  targetChoice : Nat
  shelfChoice : Nat
  cashChoice : Nat
  browseChoice : Nat
  browseAngleSame : ℝ
  browseAngleAny : ℝ
  browseDistance : ℝ
  dropDelay : ℝ
  litterCount : Nat

/-- `_pick_new_browsing_target`, shared verbatim by `ThiefCustomer` and
`LitterCustomer`, over the navigation fields: filter the browsing positions
to the customer's side of the shelf (dot product with the normalized
shelf-to-customer direction above `0.3`), fall back to all positions, pick
one and path to it; with no browsing positions, place a target by angle and
distance around the shelf.  `none` models the `TypeError` Python raises when
`shelf_pos` is `None`. -/
noncomputable def pickBrowsingTargetCore (fuel : Nat) (nav : NavState) (shelfPos : Option Vec)
    (browsingPositions : List Vec) (rnd : RandDraws) : Option (NavState × Option Vec) :=
  if browsingPositions.isEmpty then
    match shelfPos with
    | none => none
    | some sp =>
      let stc : Vec := (nav.position.1 - sp.1, nav.position.2 - sp.2)
      let angle :=
        if Vec.length stc > 1e-3 then atan2 stc.2 stc.1 + rnd.browseAngleSame
        else rnd.browseAngleAny
      let tgt : Vec := (sp.1 + rnd.browseDistance * Real.cos angle,
                        sp.2 + rnd.browseDistance * Real.sin angle)
      some (computePath fuel nav tgt, some tgt)
  else
    match shelfPos with
    | none => none
    | some sp =>
      let stc : Vec := (nav.position.1 - sp.1, nav.position.2 - sp.2)
      let validPositions :=
        if Vec.length stc < 1e-3 then browsingPositions
        else
          let d := Vec.normalize stc
          let filtered := browsingPositions.filter (fun p =>
            let sp2 : Vec := (p.1 - sp.1, p.2 - sp.2)
            if Vec.length sp2 < 1e-3 then false
            else if 0.3 < Vec.dot d (Vec.normalize sp2) then true else false)
          if filtered.isEmpty then browsingPositions else filtered
      match randChoice validPositions rnd.browseChoice with
      | some tgt => some (computePath fuel nav tgt, some tgt)
      | none => some (nav, none)

/-- The fields of a `ThiefCustomer`. -/
structure ThiefState where
  nav : NavState
  radius : ℝ
  health : Int
  showHealthBar : Bool
  knockbackVelocity : Vec
  knockbackTimer : ℝ
  doorPos : Vec
  leavePos : Vec
  shelfTargets : List Vec
  nodeTargets : List Vec
  state : String
  targetType : String
  nodePos : Option Vec
  shelfPos : Option Vec
  browsingPositions : List Vec
  browsingTime : ℝ
  browsingElapsed : ℝ
  browsingTarget : Option Vec
  shelfTarget : Option Vec
  targetCash : Option Cash
  targetCashPos : Option Vec
  buyingTime : ℝ
  buyingElapsed : ℝ
  lookAroundTimer : ℝ
  lookAroundDelay : ℝ
  pauseTimer : ℝ
  isPaused : Bool
  approachingNode : Bool
  finished : Bool
  stoleCash : Bool

/-- `ThiefCustomer.is_alive`: `health > 0`. -/
def ThiefState.is_alive (st : ThiefState) : Bool := decide (0 < st.health)

/-- `ThiefCustomer.take_damage`: subtract, show the health bar, clamp at
zero and report death. -/
def ThiefState.takeDamage (st : ThiefState) (amount : Int) : ThiefState × Bool :=
  let st1 := { st with health := st.health - amount, showHealthBar := true }
  if st1.health ≤ 0 then ({ st1 with health := 0 }, true) else (st1, false)

/-- `ThiefCustomer._compute_path` lifted to the full state. -/
noncomputable def thiefComputePath (fuel : Nat) (st : ThiefState) (target : Vec) : ThiefState :=
  { st with nav := computePath fuel st.nav target }

/-- `ThiefCustomer._follow_path` lifted to the full state. -/
noncomputable def thiefFollowStep (fuel : Nat) (st : ThiefState) (dt : ℝ)
    (solidRects : List Rect) (target : Vec) (prox : ℝ) (doorRects : List Rect)
    (acc : Bool) : ThiefState × Bool :=
  let r := followPath fuel st.nav dt solidRects target st.radius prox doorRects acc
  ({ st with nav := r.1 }, r.2)

/-- `ThiefCustomer._move_towards` lifted to the full state. -/
noncomputable def thiefMoveStep (st : ThiefState) (target : Vec) (dt : ℝ)
    (solidRects : List Rect) (prox : ℝ) (doorRects : List Rect) (acc : Bool)
    (ups : Bool) : ThiefState × Bool :=
  let r := thiefMoveTowards st.nav.position st.radius target dt solidRects prox doorRects acc ups
  ({ st with nav := { st.nav with position := r.1 } }, r.2)

/-- `ThiefCustomer._pick_new_browsing_target`. -/
noncomputable def thiefPick (fuel : Nat) (st : ThiefState) (rnd : RandDraws) :
    Option ThiefState :=
  (pickBrowsingTargetCore fuel st.nav st.shelfPos st.browsingPositions rnd).map
    (fun r => { st with nav := r.1, browsingTarget := r.2 })

/-- The knockback phase at the top of `ThiefCustomer.update`: move by the
knockback velocity when the box at the test position is clear, stop the
knockback on collision, then decay the timer and velocity. -/
noncomputable def thiefKnockback (st : ThiefState) (dt : ℝ) (solidRects : List Rect) :
    ThiefState :=
  if st.knockbackTimer > 0 then
    let kdist := Vec.length st.knockbackVelocity * dt * (FPS : ℝ)
    let st1 : ThiefState :=
      if kdist > 0 then
        let kdir : Vec :=
          if st.knockbackVelocity.1 ^ 2 + st.knockbackVelocity.2 ^ 2 > 0 then
            Vec.normalize st.knockbackVelocity
          else (0, 0)
        let testPos : Vec := (st.nav.position.1 + kdir.1 * kdist,
                              st.nav.position.2 + kdir.2 * kdist)
        if collideAnyRect (agentRect testPos st.radius) solidRects then
          { st with knockbackVelocity := (0, 0), knockbackTimer := 0 }
        else
          { st with nav := { st.nav with position := testPos } }
      else st
    let st2 : ThiefState := { st1 with knockbackTimer := st1.knockbackTimer - dt }
    if st2.knockbackTimer ≤ 0 then
      { st2 with knockbackVelocity := (0, 0), knockbackTimer := 0 }
    else
      { st2 with knockbackVelocity := (st2.knockbackVelocity.1 * 0.9,
                                       st2.knockbackVelocity.2 * 0.9) }
  else st

/-- `ThiefCustomer.update`: the dead check, the knockback phase, then the
state machine (`entering`, `to_node`, `looking_at_node`, `buying`,
`to_shelf`, `browsing`, `searching`, `stealing`, `leaving`).  `none` models
the crashes Python would raise on `None` targets; the `use_player_speed`
parameter is accepted and, as in the source, never read. -/
noncomputable def thiefUpdate (fuel : Nat) (st0 : ThiefState) (dt : ℝ)
    (solidRects : List Rect) (cashItems : List Cash) (doorRects : List Rect)
    (usePlayerSpeed : Bool) (rnd : RandDraws) : Option ThiefState :=
  if st0.is_alive = true then
    let st := thiefKnockback st0 dt solidRects
    if st.state = "entering" then
      let r := thiefMoveStep st st.doorPos dt solidRects ((TILE_SIZE : ℝ) * 0.3) doorRects
        true false
      if r.2 then
        if r.1.targetType = "node" then
          match r.1.nodePos with
          | some np => some (thiefComputePath fuel { r.1 with state := "to_node" } np)
          | none => none
        else
          let r1 := { r.1 with state := "to_shelf" }
          if r1.browsingPositions.isEmpty then
            match r1.shelfPos with
            | some spv =>
              some (thiefComputePath fuel { r1 with shelfTarget := some spv } spv)
            | none => none
          else
            match randChoice r1.browsingPositions rnd.shelfChoice with
            | some t => some (thiefComputePath fuel { r1 with shelfTarget := some t } t)
            | none => none
      else some r.1
    else if st.state = "to_node" then
      match st.nodePos with
      | none => some (thiefComputePath fuel { st with state := "leaving" } st.leavePos)
      | some np =>
        let dist := Vec.length (st.nav.position.1 - np.1, st.nav.position.2 - np.2)
        if dist < (TILE_SIZE : ℝ) * 2.5 then
          let st1 := { st with
            approachingNode := true
            lookAroundTimer := st.lookAroundTimer + dt }
          let st2 :=
            if st1.lookAroundTimer ≥ st1.lookAroundDelay ∧ st1.isPaused = false then
              { st1 with
                isPaused := true
                pauseTimer := rnd.pauseTime
                lookAroundTimer := 0
                lookAroundDelay := rnd.lookDelay }
            else st1
          if st2.isPaused then
            let st3 := { st2 with pauseTimer := st2.pauseTimer - dt }
            some (if st3.pauseTimer ≤ 0 then { st3 with isPaused := false } else st3)
          else
            let r := thiefFollowStep fuel st2 (dt * 0.6) solidRects np
              ((TILE_SIZE : ℝ) * 0.5) doorRects false
            if r.2 then
              some { r.1 with
                state := "looking_at_node"
                lookAroundTimer := 0
                lookAroundDelay := rnd.lookDelay
                nav := { r.1.nav with path := none, pathIndex := 0 } }
            else some r.1
        else
          let st1 := { st with approachingNode := false, isPaused := false }
          let r := thiefFollowStep fuel st1 dt solidRects np ((TILE_SIZE : ℝ) * 0.5)
            doorRects false
          if r.2 then
            some { r.1 with
              state := "looking_at_node"
              lookAroundTimer := 0
              lookAroundDelay := rnd.lookDelay
              nav := { r.1.nav with path := none, pathIndex := 0 } }
          else some r.1
    else if st.state = "looking_at_node" then
      let st1 := { st with lookAroundTimer := st.lookAroundTimer + dt }
      if st1.lookAroundTimer ≥ st1.lookAroundDelay then
        some { st1 with
          state := "buying"
          buyingTime := rnd.buyTime
          buyingElapsed := 0
          lookAroundTimer := 0 }
      else some st1
    else if st.state = "buying" then
      let st1 := { st with buyingElapsed := st.buyingElapsed + dt }
      if st1.buyingElapsed ≥ st1.buyingTime then
        some (thiefComputePath fuel
          { st1 with
            state := "leaving"
            nav := { st1.nav with path := none, pathIndex := 0 }
            approachingNode := false
            isPaused := false } st1.leavePos)
      else some st1
    else if st.state = "to_shelf" then
      let prep : Option (ThiefState × Option Vec) :=
        match st.shelfTarget with
        | some t => some (st, some t)
        | none =>
          if st.browsingPositions.isEmpty then
            match st.shelfPos with
            | some spv => some (thiefComputePath fuel { st with shelfTarget := some spv } spv,
                some spv)
            | none => none
          else
            match randChoice st.browsingPositions rnd.shelfChoice with
            | some t => some (thiefComputePath fuel { st with shelfTarget := some t } t, some t)
            | none => none
      match prep with
      | none => none
      | some (st1, otgt) =>
        match otgt with
        | none => none
        | some tgt =>
          let r := thiefFollowStep fuel st1 dt solidRects tgt ((TILE_SIZE : ℝ) * 0.4)
            doorRects false
          if r.2 then
            thiefPick fuel
              { r.1 with
                state := "browsing"
                browsingElapsed := 0
                shelfTarget := none
                nav := { r.1.nav with path := none, pathIndex := 0, stuckTimer := 0 } } rnd
          else some r.1
    else if st.state = "browsing" then
      let st1 := { st with browsingElapsed := st.browsingElapsed + dt }
      if st1.browsingElapsed ≥ st1.browsingTime then
        some { st1 with
          state := "searching"
          nav := { st1.nav with path := none, pathIndex := 0 } }
      else
        match st1.browsingTarget with
        | none => thiefPick fuel st1 rnd
        | some bt =>
          let r := thiefFollowStep fuel st1 dt solidRects bt ((TILE_SIZE : ℝ) * 0.4)
            doorRects false
          if r.2 then thiefPick fuel r.1 rnd
          else some r.1
    else if st.state = "searching" then
      if cashItems.isEmpty then
        some (thiefComputePath fuel { st with state := "leaving" } st.leavePos)
      else
        match randChoice cashItems rnd.cashChoice with
        | none => none
        | some c =>
          some (thiefComputePath fuel
            { st with
              targetCash := some c
              targetCashPos := some c.pos
              state := "stealing" } c.pos)
    else if st.state = "stealing" then
      match st.targetCashPos with
      | none => some (thiefComputePath fuel { st with state := "leaving" } st.leavePos)
      | some tcp =>
        let targetGone : Bool :=
          match st.targetCash with
          | some c => !(cashItems.any (fun c2 => c2.id == c.id))
          | none => false
        if targetGone then
          some (thiefComputePath fuel
            { st with
              targetCash := none
              targetCashPos := none
              state := "leaving" } st.leavePos)
        else
          let r := thiefFollowStep fuel st dt solidRects tcp ((TILE_SIZE : ℝ) * 0.4)
            doorRects false
          if r.2 then
            some (thiefComputePath fuel
              { r.1 with
                stoleCash := true
                state := "leaving"
                nav := { r.1.nav with path := none, pathIndex := 0 } } r.1.leavePos)
          else some r.1
    else if st.state = "leaving" then
      let dd := Vec.length (st.nav.position.1 - st.doorPos.1, st.nav.position.2 - st.doorPos.2)
      if dd < (TILE_SIZE : ℝ) * 1.5 then
        let r := thiefMoveStep st st.leavePos dt solidRects ((TILE_SIZE : ℝ) * 0.5) doorRects
          true false
        if r.2 then some { r.1 with finished := true } else some r.1
      else
        let st1 :=
          if (match st.nav.path with
              | none => true
              | some p => decide (p.length ≤ st.nav.pathIndex)) then
            thiefComputePath fuel st st.doorPos
          else st
        let r := thiefFollowStep fuel st1 dt solidRects st1.doorPos ((TILE_SIZE : ℝ) * 0.4)
          doorRects true
        if r.2 then
          some { r.1 with nav := { r.1.nav with path := none, pathIndex := 0 } }
        else some r.1
    else some st
  else some { st0 with finished := true }

/-- `ThiefCustomer.__init__`.  `shelf_targets or [door]` and the
`all_targets` fallback are the `isEmpty` tests; the browsing-position
lookup models the dictionary access (the zero-vector test mirrors pygame's
falsy `Vector2(0, 0)` in `self.shelf_pos and shelf_browsing_positions`). -/
noncomputable def thiefInit (doorPos : Vec) (shelfTargets : List Vec)
    (shelfBrowsing : Option (Vec → Option (List Vec))) (tileMap : Option Tile)
    (nodeTargets : List Vec) (rnd : RandDraws) : Option ThiefState :=
  let shelfT := if shelfTargets.isEmpty then [doorPos] else shelfTargets
  let allT0 := shelfT ++ nodeTargets
  let allT := if allT0.isEmpty then [doorPos] else allT0
  match randChoice allT rnd.targetChoice with
  | none => none
  | some chosen =>
    let isNode : Bool := if chosen ∈ nodeTargets then true else false
    let browsingPos : List Vec :=
      if isNode = false then
        match shelfBrowsing with
        | some f => if chosen = ((0 : ℝ), (0 : ℝ)) then [] else (f chosen).getD []
        | none => []
      else []
    some
      { nav := { position := doorPos
                 tileMap := tileMap
                 path := none
                 pathIndex := 0
                 lastPathRecomputePos := none
                 stuckTimer := 0
                 lastPosition := doorPos }
        radius := CUSTOMER_RADIUS
        health := 3
        showHealthBar := false
        knockbackVelocity := (0, 0)
        knockbackTimer := 0
        doorPos := doorPos
        leavePos := (doorPos.1 + (TILE_SIZE : ℝ) * 2.0, doorPos.2)
        shelfTargets := shelfT
        nodeTargets := nodeTargets
        state := "entering"
        targetType := if isNode then "node" else "shelf"
        nodePos := if isNode then some chosen else none
        shelfPos := if isNode then none else some chosen
        browsingPositions := browsingPos
        browsingTime := rnd.browseTime
        browsingElapsed := 0
        browsingTarget := none
        shelfTarget := none
        targetCash := none
        targetCashPos := none
        buyingTime := 0
        buyingElapsed := 0
        lookAroundTimer := 0
        lookAroundDelay := rnd.lookDelay
        pauseTimer := 0
        isPaused := false
        approachingNode := false
        finished := false
        stoleCash := false }


/-- The fields of a `LitterCustomer`. -/
structure LitterState where
  nav : NavState
  radius : ℝ
  doorPos : Vec
  leavePos : Vec
  shelfTargets : List Vec
  nodeTargets : List Vec
  state : String
  targetType : String
  nodePos : Option Vec
  shelfPos : Option Vec
  browsingPositions : List Vec
  browsingTime : ℝ
  browsingElapsed : ℝ
  browsingTarget : Option Vec
  shelfTarget : Option Vec
  buyingTime : ℝ
  buyingElapsed : ℝ
  lookAroundTimer : ℝ
  lookAroundDelay : ℝ
  pauseTimer : ℝ
  isPaused : Bool
  approachingNode : Bool
  finished : Bool
  dropLitter : Bool
  litterPos : Option Vec
  litterCountTarget : Nat
  litterCountDropped : Nat
  litterDropTimer : ℝ
  litterDropDelay : ℝ
  lastLitterDropPos : Option Vec

/-- `LitterCustomer._compute_path` lifted to the full state. -/
noncomputable def litterComputePath (fuel : Nat) (st : LitterState) (target : Vec) :
    LitterState :=
  { st with nav := computePath fuel st.nav target }

/-- `LitterCustomer._follow_path` lifted to the full state. -/
noncomputable def litterFollowStep (fuel : Nat) (st : LitterState) (dt : ℝ)
    (solidRects : List Rect) (target : Vec) (prox : ℝ) (doorRects : List Rect)
    (acc : Bool) : LitterState × Bool :=
  let r := followPath fuel st.nav dt solidRects target st.radius prox doorRects acc
  ({ st with nav := r.1 }, r.2)

/-- `LitterCustomer._move_towards` lifted to the full state (the litterer's
routine is the thief's without the player-speed flag). -/
noncomputable def litterMoveStep (st : LitterState) (target : Vec) (dt : ℝ)
    (solidRects : List Rect) (prox : ℝ) (doorRects : List Rect) (acc : Bool) :
    LitterState × Bool :=
  let r := thiefMoveTowards st.nav.position st.radius target dt solidRects prox doorRects
    acc false
  ({ st with nav := { st.nav with position := r.1 } }, r.2)

/-- `LitterCustomer._pick_new_browsing_target`. -/
noncomputable def litterPick (fuel : Nat) (st : LitterState) (rnd : RandDraws) :
    Option LitterState :=
  (pickBrowsingTargetCore fuel st.nav st.shelfPos st.browsingPositions rnd).map
    (fun r => { st with nav := r.1, browsingTarget := r.2 })

/-- `LitterCustomer._is_on_floor_tile`. -/
noncomputable def litterOnFloorTile (st : LitterState) : Bool :=
  match st.nav.tileMap with
  | some tm =>
    let c := world_to_tile st.nav.position
    tm c.1 c.2 == TILE_FLOOR
  | none => false

/-- The litter-drop sub-step shared by the `buying` and `browsing` states:
once the drop timer passes the delay, on a floor tile, far enough from the
last drop — and, in `buying` (`checkTarget = true`), only while strictly
below the target count — drop one item.  The `browsing` call site passes
`checkTarget = false` because its enclosing branch has already checked the
count. -/
noncomputable def litterDrop (st : LitterState) (rnd : RandDraws) (checkTarget : Bool) :
    LitterState :=
  if st.litterDropTimer ≥ st.litterDropDelay then
    if litterOnFloorTile st then
      let sd : Bool :=
        match st.lastLitterDropPos with
        | some lp =>
          if Vec.length (st.nav.position.1 - lp.1, st.nav.position.2 - lp.2) <
              (TILE_SIZE : ℝ) * 0.8 then false else true
        | none => true
      if sd = true ∧ (checkTarget = true → st.litterCountDropped < st.litterCountTarget) then
        { st with
          dropLitter := true
          litterPos := some st.nav.position
          litterCountDropped := st.litterCountDropped + 1
          litterDropTimer := 0
          litterDropDelay := rnd.dropDelay
          lastLitterDropPos := some st.nav.position }
      else st
    else st
  else st

/-- The `entering` branch of `LitterCustomer.update`. -/
noncomputable def litterEnteringStep (fuel : Nat) (st : LitterState) (dt : ℝ)
    (solidRects : List Rect) (doorRects : List Rect) (rnd : RandDraws) :
    Option LitterState :=
  let r := litterMoveStep st st.doorPos dt solidRects ((TILE_SIZE : ℝ) * 0.3) doorRects true
  if r.2 then
    if r.1.targetType = "node" then
      match r.1.nodePos with
      | some np => some (litterComputePath fuel { r.1 with state := "to_node" } np)
      | none => none
    else
      let r1 := { r.1 with state := "to_shelf" }
      if r1.browsingPositions.isEmpty then
        match r1.shelfPos with
        | some spv => some (litterComputePath fuel { r1 with shelfTarget := some spv } spv)
        | none => none
      else
        match randChoice r1.browsingPositions rnd.shelfChoice with
        | some t => some (litterComputePath fuel { r1 with shelfTarget := some t } t)
        | none => none
  else some r.1

/-- The `to_node` branch of `LitterCustomer.update`. -/
noncomputable def litterToNodeStep (fuel : Nat) (st : LitterState) (dt : ℝ)
    (solidRects : List Rect) (doorRects : List Rect) (rnd : RandDraws) :
    Option LitterState :=
  match st.nodePos with
  | none => some (litterComputePath fuel { st with state := "leaving" } st.leavePos)
  | some np =>
    let dist := Vec.length (st.nav.position.1 - np.1, st.nav.position.2 - np.2)
    if dist < (TILE_SIZE : ℝ) * 2.0 then
      let st1 := { st with
        approachingNode := true
        lookAroundTimer := st.lookAroundTimer + dt }
      let st2 :=
        if st1.lookAroundTimer ≥ st1.lookAroundDelay ∧ st1.isPaused = false then
          { st1 with
            isPaused := true
            pauseTimer := rnd.pauseTime
            lookAroundTimer := 0
            lookAroundDelay := rnd.lookDelay }
        else st1
      if st2.isPaused then
        let st3 := { st2 with pauseTimer := st2.pauseTimer - dt }
        some (if st3.pauseTimer ≤ 0 then { st3 with isPaused := false } else st3)
      else
        let r := litterFollowStep fuel st2 (dt * 0.85) solidRects np
          ((TILE_SIZE : ℝ) * 0.5) doorRects false
        if r.2 then
          some { r.1 with
            state := "looking_at_node"
            lookAroundTimer := 0
            lookAroundDelay := rnd.lookDelay
            nav := { r.1.nav with path := none, pathIndex := 0 } }
        else some r.1
    else
      let st1 := { st with approachingNode := false, isPaused := false }
      let r := litterFollowStep fuel st1 dt solidRects np ((TILE_SIZE : ℝ) * 0.5)
        doorRects false
      if r.2 then
        some { r.1 with
          state := "looking_at_node"
          lookAroundTimer := 0
          lookAroundDelay := rnd.lookDelay
          nav := { r.1.nav with path := none, pathIndex := 0 } }
      else some r.1

/-- The `looking_at_node` branch of `LitterCustomer.update`. -/
noncomputable def litterLookingStep (st : LitterState) (dt : ℝ) (rnd : RandDraws) :
    Option LitterState :=
  let st1 := { st with lookAroundTimer := st.lookAroundTimer + dt }
  if st1.lookAroundTimer ≥ st1.lookAroundDelay then
    some { st1 with
      state := "buying"
      buyingTime := rnd.buyTime
      buyingElapsed := 0
      lookAroundTimer := 0 }
  else some st1

/-- The `buying` branch of `LitterCustomer.update`. -/
noncomputable def litterBuyingStep (fuel : Nat) (st : LitterState) (dt : ℝ)
    (rnd : RandDraws) : Option LitterState :=
  let st1 := { st with
    buyingElapsed := st.buyingElapsed + dt
    litterDropTimer := st.litterDropTimer + dt }
  let st2 := litterDrop st1 rnd true
  if st2.buyingElapsed ≥ st2.buyingTime then
    some (litterComputePath fuel
      { st2 with
        state := "leaving"
        nav := { st2.nav with path := none, pathIndex := 0 }
        approachingNode := false
        isPaused := false } st2.leavePos)
  else some st2

/-- The tail of the `to_shelf` branch: follow the path to the chosen
browsing position and, on arrival, enter `browsing` and pick a browsing
target. -/
noncomputable def litterShelfArrive (fuel : Nat) (st1 : LitterState) (dt : ℝ)
    (solidRects : List Rect) (doorRects : List Rect) (rnd : RandDraws) (tgt : Vec) :
    Option LitterState :=
  let r := litterFollowStep fuel st1 dt solidRects tgt ((TILE_SIZE : ℝ) * 0.4)
    doorRects false
  if r.2 then
    litterPick fuel
      { r.1 with
        state := "browsing"
        browsingElapsed := 0
        shelfTarget := none
        nav := { r.1.nav with path := none, pathIndex := 0, stuckTimer := 0 } } rnd
  else some r.1

/-- The `to_shelf` branch of `LitterCustomer.update`: ensure a shelf target
exists (choosing one and pathing to it if not), then walk to it. -/
noncomputable def litterToShelfStep (fuel : Nat) (st : LitterState) (dt : ℝ)
    (solidRects : List Rect) (doorRects : List Rect) (rnd : RandDraws) :
    Option LitterState :=
  match st.shelfTarget with
  | some t => litterShelfArrive fuel st dt solidRects doorRects rnd t
  | none =>
    if st.browsingPositions.isEmpty then
      match st.shelfPos with
      | some spv =>
        litterShelfArrive fuel (litterComputePath fuel { st with shelfTarget := some spv } spv)
          dt solidRects doorRects rnd spv
      | none => none
    else
      match randChoice st.browsingPositions rnd.shelfChoice with
      | some t =>
        litterShelfArrive fuel (litterComputePath fuel { st with shelfTarget := some t } t)
          dt solidRects doorRects rnd t
      | none => none

/-- The `browsing` branch of `LitterCustomer.update`: leave once the target
count is reached; otherwise maybe drop, leave when browsing time is up, and
else keep walking between browsing targets. -/
noncomputable def litterBrowsingStep (fuel : Nat) (st : LitterState) (dt : ℝ)
    (solidRects : List Rect) (doorRects : List Rect) (rnd : RandDraws) :
    Option LitterState :=
  let st1 := { st with
    browsingElapsed := st.browsingElapsed + dt
    litterDropTimer := st.litterDropTimer + dt }
  if st1.litterCountTarget ≤ st1.litterCountDropped then
    some (litterComputePath fuel
      { st1 with
        state := "leaving"
        nav := { st1.nav with path := none, pathIndex := 0 } } st1.leavePos)
  else
    let st2 := litterDrop st1 rnd false
    if st2.browsingElapsed ≥ st2.browsingTime then
      some (litterComputePath fuel
        { st2 with
          state := "leaving"
          nav := { st2.nav with path := none, pathIndex := 0 } } st2.leavePos)
    else
      match st2.browsingTarget with
      | none => litterPick fuel st2 rnd
      | some bt =>
        let r := litterFollowStep fuel st2 dt solidRects bt ((TILE_SIZE : ℝ) * 0.4)
          doorRects false
        if r.2 then litterPick fuel r.1 rnd
        else some r.1

/-- The `leaving` branch of `LitterCustomer.update`. -/
noncomputable def litterLeavingStep (fuel : Nat) (st : LitterState) (dt : ℝ)
    (solidRects : List Rect) (doorRects : List Rect) : Option LitterState :=
  let dd := Vec.length (st.nav.position.1 - st.doorPos.1, st.nav.position.2 - st.doorPos.2)
  if dd < (TILE_SIZE : ℝ) * 1.5 then
    let r := litterMoveStep st st.leavePos dt solidRects ((TILE_SIZE : ℝ) * 0.5)
      doorRects false
    if r.2 then some { r.1 with finished := true } else some r.1
  else
    let st1 :=
      if (match st.nav.path with
          | none => true
          | some p => decide (p.length ≤ st.nav.pathIndex)) then
        litterComputePath fuel st st.doorPos
      else st
    let r := litterFollowStep fuel st1 dt solidRects st1.doorPos ((TILE_SIZE : ℝ) * 0.4)
      doorRects false
    if r.2 then
      some { r.1 with nav := { r.1.nav with path := none, pathIndex := 0 } }
    else some r.1

/-- `LitterCustomer.update`: the state-machine dispatch. -/
noncomputable def litterUpdate (fuel : Nat) (st : LitterState) (dt : ℝ)
    (solidRects : List Rect) (doorRects : List Rect) (rnd : RandDraws) :
    Option LitterState :=
  if st.state = "entering" then litterEnteringStep fuel st dt solidRects doorRects rnd
  else if st.state = "to_node" then litterToNodeStep fuel st dt solidRects doorRects rnd
  else if st.state = "looking_at_node" then litterLookingStep st dt rnd
  else if st.state = "buying" then litterBuyingStep fuel st dt rnd
  else if st.state = "to_shelf" then litterToShelfStep fuel st dt solidRects doorRects rnd
  else if st.state = "browsing" then litterBrowsingStep fuel st dt solidRects doorRects rnd
  else if st.state = "leaving" then litterLeavingStep fuel st dt solidRects doorRects
  else some st

/-- `LitterCustomer.__init__`; `litter_count_target = random.randint(5, 10)`
is the oracle draw `5 + litterCount % 6`. -/
noncomputable def litterInit (doorPos : Vec) (shelfTargets : List Vec)
    (shelfBrowsing : Option (Vec → Option (List Vec))) (tileMap : Option Tile)
    (nodeTargets : List Vec) (rnd : RandDraws) : Option LitterState :=
  let shelfT := if shelfTargets.isEmpty then [doorPos] else shelfTargets
  let allT0 := shelfT ++ nodeTargets
  let allT := if allT0.isEmpty then [doorPos] else allT0
  match randChoice allT rnd.targetChoice with
  | none => none
  | some chosen =>
    let isNode : Bool := if chosen ∈ nodeTargets then true else false
    let browsingPos : List Vec :=
      if isNode = false then
        match shelfBrowsing with
        | some f => if chosen = ((0 : ℝ), (0 : ℝ)) then [] else (f chosen).getD []
        | none => []
      else []
    some
      { nav := { position := doorPos
                 tileMap := tileMap
                 path := none
                 pathIndex := 0
                 lastPathRecomputePos := none
                 stuckTimer := 0
                 lastPosition := doorPos }
        radius := CUSTOMER_RADIUS
        doorPos := doorPos
        leavePos := (doorPos.1 + (TILE_SIZE : ℝ) * 2.0, doorPos.2)
        shelfTargets := shelfT
        nodeTargets := nodeTargets
        state := "entering"
        targetType := if isNode then "node" else "shelf"
        nodePos := if isNode then some chosen else none
        shelfPos := if isNode then none else some chosen
        browsingPositions := browsingPos
        browsingTime := rnd.browseTime
        browsingElapsed := 0
        browsingTarget := none
        shelfTarget := none
        buyingTime := 0
        buyingElapsed := 0
        lookAroundTimer := 0
        lookAroundDelay := rnd.lookDelay
        pauseTimer := 0
        isPaused := false
        approachingNode := false
        finished := false
        dropLitter := false
        litterPos := none
        litterCountTarget := 5 + rnd.litterCount % 6
        litterCountDropped := 0
        litterDropTimer := 0
        litterDropDelay := rnd.dropDelay
        lastLitterDropPos := none }

/-- A sequence of `update` calls, each with its own `dt`, rectangle lists
and random draws. -/
noncomputable def litterRun (fuel : Nat) (st : LitterState)
    (steps : List (ℝ × List Rect × List Rect × RandDraws)) : Option LitterState :=
  steps.foldl
    (fun acc s => acc.bind (fun st1 => litterUpdate fuel st1 s.1 s.2.1 s.2.2.1 s.2.2.2))
    (some st)

/-- The fields of a basic `Customer`. -/
structure CustomerState where
  position : Vec
  radius : ℝ
  doorPos : Vec
  shelfTargets : List Vec
  state : String
  target : Vec
  shelfPos : Vec
  browsingTime : ℝ
  browsingElapsed : ℝ
  browsingTarget : Option Vec
  browsingRadius : ℝ
  leavePos : Vec
  finished : Bool
  dropCash : Bool

/-- `Customer.__init__`: `shelf_targets or [self.door_pos]`, then a random
shelf choice. -/
noncomputable def customerInit (doorPos : Vec) (shelfTargets : List Vec) (rnd : RandDraws) :
    Option CustomerState :=
  let shelfT := if shelfTargets.isEmpty then [doorPos] else shelfTargets
  match randChoice shelfT rnd.targetChoice with
  | none => none
  | some sp =>
    some
      { position := (doorPos.1 + (TILE_SIZE : ℝ) * 0.75, doorPos.2)
        radius := CUSTOMER_RADIUS
        doorPos := doorPos
        shelfTargets := shelfT
        state := "entering"
        target := doorPos
        shelfPos := sp
        browsingTime := rnd.browseTime
        browsingElapsed := 0
        browsingTarget := none
        browsingRadius := (TILE_SIZE : ℝ) * 1.5
        leavePos := (doorPos.1 + (TILE_SIZE : ℝ) * 2.0, doorPos.2)
        finished := false
        dropCash := false }


theorem randChoice_mem {α : Type} (l : List α) (k : Nat) (h : l ≠ []) :
    ∃ c, randChoice l k = some c ∧ c ∈ l := by
  unfold randChoice
  have hl : 0 < l.length := List.length_pos.mpr h
  have hk : k % l.length < l.length := Nat.mod_lt _ hl
  exact ⟨_, List.get?_eq_get hk, List.get_mem _ _ _⟩

/-- The knockback phase never touches the state string or the stolen flag. -/
theorem thiefKnockback_pres (st : ThiefState) (dt : ℝ) (solidRects : List Rect) :
    (thiefKnockback st dt solidRects).state = st.state ∧
    (thiefKnockback st dt solidRects).stoleCash = st.stoleCash := by
  unfold thiefKnockback
  dsimp only
  repeat' split
  all_goals exact ⟨rfl, rfl⟩

/-- C5.  One update step of a live thief in the `searching` state moves it
to `stealing` with a target drawn from the live currency-item list when
that list is non-empty, and directly to `leaving` when it is empty; the
`leaving` state never changes state again and never touches `stole_cash`,
so a thief that reaches `searching` with no currency items goes straight to
`leaving` with `stole_cash` unchanged (`False` stays `False`). -/
theorem thief_searching_transition (fuel : Nat) (st : ThiefState) (dt : ℝ)
    (solidRects : List Rect) (cashItems : List Cash) (doorRects : List Rect)
    (ups : Bool) (rnd : RandDraws)
    (halive : ThiefState.is_alive st = true) :
    (st.state = "searching" → cashItems = [] →
      ∃ post, thiefUpdate fuel st dt solidRects cashItems doorRects ups rnd = some post ∧
        post.state = "leaving" ∧ post.stoleCash = st.stoleCash) ∧
    (st.state = "searching" → cashItems ≠ [] →
      ∃ post c, thiefUpdate fuel st dt solidRects cashItems doorRects ups rnd = some post ∧
        post.state = "stealing" ∧ c ∈ cashItems ∧ post.targetCash = some c ∧
        post.targetCashPos = some c.pos ∧ post.stoleCash = st.stoleCash) ∧
    (st.state = "leaving" →
      ∀ post, thiefUpdate fuel st dt solidRects cashItems doorRects ups rnd = some post →
        post.state = "leaving" ∧ post.stoleCash = st.stoleCash) := by
  obtain ⟨hks, hsc⟩ := thiefKnockback_pres st dt solidRects
  refine ⟨?_, ?_, ?_⟩
  · intro hstate hempty
    subst hempty
    have eS : (thiefKnockback st dt solidRects).state = "searching" := by rw [hks, hstate]
    have n1 : ¬ ((thiefKnockback st dt solidRects).state = "entering") := by rw [eS]; decide
    have n2 : ¬ ((thiefKnockback st dt solidRects).state = "to_node") := by rw [eS]; decide
    have n3 : ¬ ((thiefKnockback st dt solidRects).state = "looking_at_node") := by
      rw [eS]; decide
    have n4 : ¬ ((thiefKnockback st dt solidRects).state = "buying") := by rw [eS]; decide
    have n5 : ¬ ((thiefKnockback st dt solidRects).state = "to_shelf") := by rw [eS]; decide
    have n6 : ¬ ((thiefKnockback st dt solidRects).state = "browsing") := by rw [eS]; decide
    unfold thiefUpdate
    rw [if_pos halive]
    dsimp only
    rw [if_neg n1, if_neg n2, if_neg n3, if_neg n4, if_neg n5, if_neg n6, if_pos eS]
    exact ⟨_, rfl, rfl, hsc⟩
  · intro hstate hne
    have eS : (thiefKnockback st dt solidRects).state = "searching" := by rw [hks, hstate]
    have n1 : ¬ ((thiefKnockback st dt solidRects).state = "entering") := by rw [eS]; decide
    have n2 : ¬ ((thiefKnockback st dt solidRects).state = "to_node") := by rw [eS]; decide
    have n3 : ¬ ((thiefKnockback st dt solidRects).state = "looking_at_node") := by
      rw [eS]; decide
    have n4 : ¬ ((thiefKnockback st dt solidRects).state = "buying") := by rw [eS]; decide
    have n5 : ¬ ((thiefKnockback st dt solidRects).state = "to_shelf") := by rw [eS]; decide
    have n6 : ¬ ((thiefKnockback st dt solidRects).state = "browsing") := by rw [eS]; decide
    have nE : cashItems.isEmpty = false := by
      cases cashItems with
      | nil => exact absurd rfl hne
      | cons a as => rfl
    obtain ⟨c, hc, hmem⟩ := randChoice_mem cashItems rnd.cashChoice hne
    unfold thiefUpdate
    rw [if_pos halive]
    dsimp only
    rw [if_neg n1, if_neg n2, if_neg n3, if_neg n4, if_neg n5, if_neg n6, if_pos eS, nE,
      if_neg (by decide : ¬ (false = true)), hc]
    exact ⟨_, c, rfl, rfl, hmem, rfl, rfl, hsc⟩
  · intro hstate post
    have eL : (thiefKnockback st dt solidRects).state = "leaving" := by rw [hks, hstate]
    have n1 : ¬ ((thiefKnockback st dt solidRects).state = "entering") := by rw [eL]; decide
    have n2 : ¬ ((thiefKnockback st dt solidRects).state = "to_node") := by rw [eL]; decide
    have n3 : ¬ ((thiefKnockback st dt solidRects).state = "looking_at_node") := by
      rw [eL]; decide
    have n4 : ¬ ((thiefKnockback st dt solidRects).state = "buying") := by rw [eL]; decide
    have n5 : ¬ ((thiefKnockback st dt solidRects).state = "to_shelf") := by rw [eL]; decide
    have n6 : ¬ ((thiefKnockback st dt solidRects).state = "browsing") := by rw [eL]; decide
    have n7 : ¬ ((thiefKnockback st dt solidRects).state = "searching") := by rw [eL]; decide
    have n8 : ¬ ((thiefKnockback st dt solidRects).state = "stealing") := by rw [eL]; decide
    unfold thiefUpdate
    rw [if_pos halive]
    dsimp only
    rw [if_neg n1, if_neg n2, if_neg n3, if_neg n4, if_neg n5, if_neg n6, if_neg n7,
      if_neg n8, if_pos eL]
    repeat' split
    all_goals (intro hp; injection hp with hp; subst hp; exact ⟨eL, hsc⟩)


/-- C9.  `take_damage` never leaves health negative: when the decremented
health is `≤ 0` it sets health to exactly `0` and returns `True`, otherwise
it returns `False` with health decremented; health after any hit is `≥ 0`;
`is_alive` holds exactly when `health > 0`; and a dead thief's next update
only marks it finished, regardless of its current state. -/
theorem thief_take_damage_clamps (st : ThiefState) (amount : Int) (fuel : Nat) (dt : ℝ)
    (solidRects : List Rect) (cashItems : List Cash) (doorRects : List Rect) (ups : Bool)
    (rnd : RandDraws) :
    (st.health - amount ≤ 0 →
      (ThiefState.takeDamage st amount).1.health = 0 ∧
      (ThiefState.takeDamage st amount).2 = true) ∧
    (0 < st.health - amount →
      (ThiefState.takeDamage st amount).1.health = st.health - amount ∧
      (ThiefState.takeDamage st amount).2 = false) ∧
    0 ≤ (ThiefState.takeDamage st amount).1.health ∧
    (ThiefState.is_alive st = true ↔ 0 < st.health) ∧
    (ThiefState.is_alive st = false →
      thiefUpdate fuel st dt solidRects cashItems doorRects ups rnd =
        some { st with finished := true }) := by
  refine ⟨?_, ?_, ?_, ?_, ?_⟩
  · intro h
    unfold ThiefState.takeDamage
    dsimp only
    rw [if_pos h]
    exact ⟨rfl, rfl⟩
  · intro h
    unfold ThiefState.takeDamage
    dsimp only
    rw [if_neg (by omega)]
    exact ⟨rfl, rfl⟩
  · unfold ThiefState.takeDamage
    dsimp only
    by_cases h : st.health - amount ≤ 0
    · rw [if_pos h]
    · rw [if_neg h]
      dsimp only
      omega
  · unfold ThiefState.is_alive
    simp
  · intro hdead
    unfold thiefUpdate
    rw [hdead, if_neg (by decide : ¬ (false = true))]

/-- A concrete all-zero oracle for witnesses. -/
noncomputable def rnd0 : RandDraws := ⟨0, 0, 0, 0, 0, 0, 0, 0, 0, 0, 0, 0, 0⟩

/-- A concrete live thief in the `searching` state. -/
noncomputable def thSearch : ThiefState :=
  ⟨⟨(0, 0), none, none, 0, none, 0, (0, 0)⟩, 42, 3, false, (0, 0), 0, (0, 0), (0, 0),
    [], [], "searching", "shelf", none, none, [], 0, 0, none, none, none, none, 0, 0,
    0, 0, 0, false, false, false, false⟩

/-- A concrete thief with zero health. -/
noncomputable def thDead : ThiefState :=
  ⟨⟨(0, 0), none, none, 0, none, 0, (0, 0)⟩, 42, 0, true, (0, 0), 0, (0, 0), (0, 0),
    [], [], "browsing", "shelf", none, none, [], 0, 0, none, none, none, none, 0, 0,
    0, 0, 0, false, false, false, false⟩

/-- Witness for C5 at a concrete searching thief with an empty cash list. -/
theorem thief_searching_transition_witness :
    ThiefState.is_alive thSearch = true ∧ thSearch.state = "searching" ∧
    ∃ post, thiefUpdate 1 thSearch 0.1 [] [] [] false rnd0 = some post ∧
      post.state = "leaving" ∧ post.stoleCash = thSearch.stoleCash :=
  ⟨rfl, rfl, (thief_searching_transition 1 thSearch 0.1 [] [] [] false rnd0 rfl).1 rfl rfl⟩

/-- Witness for C9: a 3-health thief hit for 5 clamps to 0 and dies, and a
dead thief's update only sets `finished`. -/
theorem thief_take_damage_clamps_witness :
    ((ThiefState.takeDamage thSearch 5).1.health = 0 ∧
      (ThiefState.takeDamage thSearch 5).2 = true) ∧
    thiefUpdate 1 thDead 0.1 [] [] [] false rnd0 = some { thDead with finished := true } :=
  ⟨(thief_take_damage_clamps thSearch 5 1 0.1 [] [] [] false rnd0).1 (by decide),
   (thief_take_damage_clamps thDead 5 1 0.1 [] [] [] false rnd0).2.2.2.2 rfl⟩

theorem litterDrop_le_target (st : LitterState) (rnd : RandDraws)
    (h : st.litterCountDropped ≤ st.litterCountTarget) :
    (litterDrop st rnd true).litterCountDropped ≤
      (litterDrop st rnd true).litterCountTarget := by
  unfold litterDrop
  dsimp only
  repeat' split
  all_goals first
    | exact h
    | (rename_i hcond; dsimp only; have := hcond.2 rfl; omega)

theorem litterDrop_lt_target (st : LitterState) (rnd : RandDraws) (b : Bool)
    (h : st.litterCountDropped < st.litterCountTarget) :
    (litterDrop st rnd b).litterCountDropped ≤
      (litterDrop st rnd b).litterCountTarget := by
  unfold litterDrop
  dsimp only
  repeat' split
  all_goals first
    | omega
    | (dsimp only; omega)

theorem litterPick_counts (fuel : Nat) (st : LitterState) (rnd : RandDraws) :
    ∀ post, litterPick fuel st rnd = some post →
      post.litterCountDropped = st.litterCountDropped ∧
      post.litterCountTarget = st.litterCountTarget := by
  intro post h
  unfold litterPick at h
  rcases Option.map_eq_some'.mp h with ⟨r, hr, hpost⟩
  subst hpost
  exact ⟨rfl, rfl⟩

theorem litterEnteringStep_counts (fuel : Nat) (st : LitterState) (dt : ℝ)
    (solidRects : List Rect) (doorRects : List Rect) (rnd : RandDraws) :
    ∀ post, litterEnteringStep fuel st dt solidRects doorRects rnd = some post →
      post.litterCountDropped = st.litterCountDropped ∧
      post.litterCountTarget = st.litterCountTarget := by
  intro post h
  unfold litterEnteringStep at h
  dsimp only at h
  repeat' split at h
  all_goals try exact Option.noConfusion h
  all_goals (injection h with h; subst h; exact ⟨rfl, rfl⟩)

theorem litterToNodeStep_counts (fuel : Nat) (st : LitterState) (dt : ℝ)
    (solidRects : List Rect) (doorRects : List Rect) (rnd : RandDraws) :
    ∀ post, litterToNodeStep fuel st dt solidRects doorRects rnd = some post →
      post.litterCountDropped = st.litterCountDropped ∧
      post.litterCountTarget = st.litterCountTarget := by
  intro post h
  unfold litterToNodeStep at h
  dsimp only at h
  repeat' split at h
  all_goals (injection h with h; subst h; exact ⟨rfl, rfl⟩)

theorem litterLookingStep_counts (st : LitterState) (dt : ℝ) (rnd : RandDraws) :
    ∀ post, litterLookingStep st dt rnd = some post →
      post.litterCountDropped = st.litterCountDropped ∧
      post.litterCountTarget = st.litterCountTarget := by
  intro post h
  unfold litterLookingStep at h
  dsimp only at h
  repeat' split at h
  all_goals (injection h with h; subst h; exact ⟨rfl, rfl⟩)

theorem litterShelfArrive_counts (fuel : Nat) (st1 : LitterState) (dt : ℝ)
    (solidRects : List Rect) (doorRects : List Rect) (rnd : RandDraws) (tgt : Vec) :
    ∀ post, litterShelfArrive fuel st1 dt solidRects doorRects rnd tgt = some post →
      post.litterCountDropped = st1.litterCountDropped ∧
      post.litterCountTarget = st1.litterCountTarget := by
  intro post h
  unfold litterShelfArrive at h
  dsimp only at h
  split at h
  · obtain ⟨hd, ht⟩ := litterPick_counts _ _ _ post h
    exact ⟨hd, ht⟩
  · injection h with h
    subst h
    exact ⟨rfl, rfl⟩

theorem litterToShelfStep_counts (fuel : Nat) (st : LitterState) (dt : ℝ)
    (solidRects : List Rect) (doorRects : List Rect) (rnd : RandDraws) :
    ∀ post, litterToShelfStep fuel st dt solidRects doorRects rnd = some post →
      post.litterCountDropped = st.litterCountDropped ∧
      post.litterCountTarget = st.litterCountTarget := by
  intro post h
  unfold litterToShelfStep at h
  repeat' split at h
  all_goals try exact Option.noConfusion h
  all_goals obtain ⟨hd, ht⟩ := litterShelfArrive_counts _ _ _ _ _ _ _ post h
  all_goals exact ⟨hd, ht⟩

theorem litterLeavingStep_counts (fuel : Nat) (st : LitterState) (dt : ℝ)
    (solidRects : List Rect) (doorRects : List Rect) :
    ∀ post, litterLeavingStep fuel st dt solidRects doorRects = some post →
      post.litterCountDropped = st.litterCountDropped ∧
      post.litterCountTarget = st.litterCountTarget := by
  intro post h
  unfold litterLeavingStep at h
  dsimp only at h
  repeat' split at h
  all_goals (injection h with h; subst h; exact ⟨rfl, rfl⟩)

theorem litterBuyingStep_counts (fuel : Nat) (st : LitterState) (dt : ℝ) (rnd : RandDraws)
    (hinv : st.litterCountDropped ≤ st.litterCountTarget) :
    ∀ post, litterBuyingStep fuel st dt rnd = some post →
      post.litterCountDropped ≤ post.litterCountTarget := by
  intro post h
  unfold litterBuyingStep at h
  dsimp only at h
  split at h
  all_goals (injection h with h; subst h)
  all_goals (apply litterDrop_le_target; dsimp only; exact hinv)

theorem litterBrowsingStep_counts (fuel : Nat) (st : LitterState) (dt : ℝ)
    (solidRects : List Rect) (doorRects : List Rect) (rnd : RandDraws)
    (hinv : st.litterCountDropped ≤ st.litterCountTarget) :
    ∀ post, litterBrowsingStep fuel st dt solidRects doorRects rnd = some post →
      post.litterCountDropped ≤ post.litterCountTarget := by
  intro post h
  unfold litterBrowsingStep at h
  dsimp only at h
  split at h
  · injection h with h
    subst h
    exact hinv
  · rename_i hlt
    have hlt2 : st.litterCountDropped < st.litterCountTarget := by
      try dsimp only at hlt
      omega
    repeat' split at h
    all_goals try (injection h with h; subst h)
    all_goals try (obtain ⟨hd, ht⟩ := litterPick_counts _ _ _ post h; rw [hd, ht])
    all_goals (apply litterDrop_lt_target; dsimp only; exact hlt2)

theorem litterUpdate_counts (fuel : Nat) (st : LitterState) (dt : ℝ)
    (solidRects : List Rect) (doorRects : List Rect) (rnd : RandDraws)
    (hinv : st.litterCountDropped ≤ st.litterCountTarget) :
    ∀ post, litterUpdate fuel st dt solidRects doorRects rnd = some post →
      post.litterCountDropped ≤ post.litterCountTarget := by
  intro post h
  unfold litterUpdate at h
  repeat' split at h
  · obtain ⟨hd, ht⟩ := litterEnteringStep_counts _ _ _ _ _ _ post h
    rw [hd, ht]
    exact hinv
  · obtain ⟨hd, ht⟩ := litterToNodeStep_counts _ _ _ _ _ _ post h
    rw [hd, ht]
    exact hinv
  · obtain ⟨hd, ht⟩ := litterLookingStep_counts _ _ _ post h
    rw [hd, ht]
    exact hinv
  · exact litterBuyingStep_counts _ _ _ _ hinv post h
  · obtain ⟨hd, ht⟩ := litterToShelfStep_counts _ _ _ _ _ _ post h
    rw [hd, ht]
    exact hinv
  · exact litterBrowsingStep_counts _ _ _ _ _ _ hinv post h
  · obtain ⟨hd, ht⟩ := litterLeavingStep_counts _ _ _ _ _ post h
    rw [hd, ht]
    exact hinv
  · injection h with h
    subst h
    exact hinv

theorem litterRun_none (fuel : Nat)
    (steps : List (ℝ × List Rect × List Rect × RandDraws)) :
    steps.foldl
      (fun acc s => acc.bind (fun st1 => litterUpdate fuel st1 s.1 s.2.1 s.2.2.1 s.2.2.2))
      none = none := by
  induction steps with
  | nil => rfl
  | cons s rest ih => exact ih

/-- C10.  A fresh `LitterCustomer` starts with `litter_count_dropped = 0 ≤
litter_count_target`, and any sequence of `update` calls preserves
`litter_count_dropped ≤ litter_count_target`: the `buying` drop is guarded
by a strict comparison with the target, and `browsing` leaves before any
further drop once the target is reached. -/
theorem litter_dropped_le_target (fuel : Nat) (st : LitterState)
    (steps : List (ℝ × List Rect × List Rect × RandDraws)) :
    (∀ door shelfT sb tm nodeT rnd li,
      litterInit door shelfT sb tm nodeT rnd = some li →
        li.litterCountDropped ≤ li.litterCountTarget) ∧
    (st.litterCountDropped ≤ st.litterCountTarget →
      ∀ post, litterRun fuel st steps = some post →
        post.litterCountDropped ≤ post.litterCountTarget) := by
  constructor
  · intro door shelfT sb tm nodeT rnd li h
    unfold litterInit at h
    dsimp only at h
    split at h
    · exact Option.noConfusion h
    · injection h with h
      subst h
      dsimp only
      omega
  · induction steps generalizing st with
    | nil =>
      intro hinv post h
      injection h with h
      subst h
      exact hinv
    | cons s rest ih =>
      intro hinv post h
      unfold litterRun at h
      rw [List.foldl_cons] at h
      simp only [Option.some_bind] at h
      cases hu : litterUpdate fuel st s.1 s.2.1 s.2.2.1 s.2.2.2 with
      | none =>
        rw [hu] at h
        rw [litterRun_none] at h
        exact Option.noConfusion h
      | some st1 =>
        rw [hu] at h
        exact ih st1
          (litterUpdate_counts fuel st s.1 s.2.1 s.2.2.1 s.2.2.2 hinv st1 hu) post h

/-- A concrete litterer state (0 dropped, target 7). -/
noncomputable def lSt : LitterState :=
  ⟨⟨(0, 0), none, none, 0, none, 0, (0, 0)⟩, 42, (0, 0), (0, 0), [], [], "done", "shelf",
    none, none, [], 0, 0, none, none, 0, 0, 0, 0, 0, false, false, false, false, none,
    7, 0, 0, 0, none⟩

/-- Witness for C10 at a concrete litterer (0 dropped, target 7) and a
one-step run. -/
theorem litter_dropped_le_target_witness :
    lSt.litterCountDropped ≤ lSt.litterCountTarget :=
  (litter_dropped_le_target 1 lSt [(0.1, [], [], rnd0)]).2 (by decide) lSt rfl


theorem randChoice_singleton {α : Type} (a : α) (k : Nat) :
    randChoice [a] k = some a := by
  unfold randChoice
  simp [Nat.mod_one]

/-- C7.  Constructing any customer variant with an empty list of shelf
targets (and, for the thief/litterer, no node targets) succeeds: the door
position is substituted as the sole candidate destination, and it becomes
the chosen (shelf-type) destination. -/
theorem empty_targets_fall_back_to_door (door : Vec)
    (sb : Option (Vec → Option (List Vec))) (tm : Option Tile) (rnd : RandDraws) :
    (∃ c, customerInit door [] rnd = some c ∧ c.shelfTargets = [door] ∧
      c.shelfPos = door) ∧
    (∃ t, thiefInit door [] sb tm [] rnd = some t ∧ t.shelfTargets = [door] ∧
      t.targetType = "shelf" ∧ t.shelfPos = some door ∧ t.nodePos = none) ∧
    (∃ l, litterInit door [] sb tm [] rnd = some l ∧ l.shelfTargets = [door] ∧
      l.targetType = "shelf" ∧ l.shelfPos = some door ∧ l.nodePos = none) := by
  refine ⟨?_, ?_, ?_⟩
  · unfold customerInit
    simp only [List.isEmpty_nil, List.isEmpty_cons, ite_self, reduceIte,
      randChoice_singleton]
    exact ⟨_, rfl, rfl, rfl⟩
  · unfold thiefInit
    simp only [List.isEmpty_nil, List.isEmpty_cons, List.append_nil, ite_self, reduceIte,
      randChoice_singleton]
    refine ⟨_, rfl, rfl, ?_, ?_, ?_⟩ <;>
      simp [List.not_mem_nil]
  · unfold litterInit
    simp only [List.isEmpty_nil, List.isEmpty_cons, List.append_nil, ite_self, reduceIte,
      randChoice_singleton]
    refine ⟨_, rfl, rfl, ?_, ?_, ?_⟩ <;>
      simp [List.not_mem_nil]
end Game
